import Mathlib

/-! Postal-code ("CEP") lookup service.

A shallow embedding of the three layers of the service

* `CepHandler.GetAddressByCepHandler`   (interfaces/http/handler.go)
* `cepServiceImpl.GetAddressByCep`      (usecase/cep_service_impl.go)
* `viaCepClientImpl.FetchAddressFromViaCep` (interfaces/services/viacep_client_impl.go)

together with the parts of the Go standard library they call (`strings`, `fmt`,
`encoding/json`, `net/http`).

Modelling conventions.

* A Go `string` that the program receives or builds (the request path, the code, a
  URL, the message of an error) is a `GoString`: the sequence of elements that ranging
  over the string yields, each a validly encoded rune or a byte that belongs to no valid
  UTF-8 encoding.  A Lean `String` stands for a Go string that is valid UTF-8: the text
  literals of the program, the fields of an address, what `encoding/json` writes and
  reads, and the bodies of responses.
* A Go `error` is a `GoError`; a nilable pointer or interface is an `Option`.
* The outside world reached through `net/http` is an `http.Client`, whose `Do` gives
  the outcome of a GET of a URL, and a function giving the error of `http.NewRequest`
  for a URL it refuses.
* A handler run yields the state of the response writer and the list of calls made
  on the service.
-/

/-! ## Go strings -/

/-- An element of a Go string, as `for range` walks it: a rune with a valid UTF-8
encoding, or a single byte that belongs to no valid encoding. -/
inductive GoRune where
  | rune (c : Char)
  | byte (b : UInt8)
  deriving DecidableEq, Repr

/-- A Go `string`: its elements in order.  The request path `/cep/%ff`, once unescaped,
is the five runes of `/cep/` followed by the byte `0xff`.  A byte string gives one list
of elements; the lists that no byte string gives (a byte below `0x80`, or adjacent bytes
that would combine to a valid encoding) are covered by the theorems all the same. -/
abbrev GoString := List GoRune

/-- The rune that ranging over a string yields for an element: the rune itself, or
`utf8.RuneError` (U+FFFD) for a byte that belongs to no valid encoding. -/
def GoRune.toRune : GoRune → Char
  | rune c => c
  | byte _ => '\ufffd'

/-- A Go string that is valid UTF-8, given by its text. -/
def GoString.ofString (s : String) : GoString := s.data.map GoRune.rune

instance : Coe String GoString := ⟨GoString.ofString⟩

/-- The conversion `[]rune(s)`: the runes of a string, U+FFFD standing for every byte
that belongs to no valid encoding. -/
def GoString.runes (s : GoString) : List Char := s.map GoRune.toRune

/-- The conversion `string([]rune(s))`: the string as valid text. -/
def GoString.text (s : GoString) : String := String.mk s.runes

/-! ## Package `unicode` and `strings` -/

namespace unicode

/-- The constant `unicode.MaxASCII`. -/
def MaxASCII : Nat := 0x7F

/-- The function `unicode.ToLower`.  Runes up to `MaxASCII` are handled inline; every
other rune is looked up in the case tables of the Go runtime (`unicode.CaseRanges`),
which are not part of the repository and are taken as the parameter `caseTable`. -/
def ToLower (caseTable : Char → Char) (r : Char) : Char :=
  if r.toNat ≤ MaxASCII then
    if 'A'.toNat ≤ r.toNat ∧ r.toNat ≤ 'Z'.toNat then Char.ofNat (r.toNat + ('a'.toNat - 'A'.toNat))
    else r
  else caseTable r

/-- The function `unicode.IsSpace`: the runes with the Unicode property White_Space. -/
def IsSpace (r : Char) : Bool :=
  r == '\t' || r == '\n' || r == '\x0b' || r == '\x0c' || r == '\r' || r == ' ' ||
  r == '\u0085' || r == '\u00a0' || r == '\u1680' ||
  decide (0x2000 ≤ r.toNat ∧ r.toNat ≤ 0x200a) ||
  r == '\u2028' || r == '\u2029' || r == '\u202f' || r == '\u205f' || r == '\u3000'

end unicode

namespace strings

/-- The function `strings.HasPrefix`.  The program asks for ASCII prefixes only, and a
string starts with the bytes of an ASCII text exactly when its elements start with the
runes of that text. -/
def HasPrefix (s pre : GoString) : Bool := pre.isPrefixOf s

/-- The function `strings.TrimPrefix`: `s` without the leading `pre`, or `s` itself when
`s` does not start with `pre`. -/
def TrimPrefix (s pre : GoString) : GoString :=
  if HasPrefix s pre then s.drop pre.length else s

/-- The function `strings.Contains`: `substr` occurs in `s` as a contiguous block.  The
program looks for ASCII texts only, which occur among the bytes of a string exactly
where they occur among its elements. -/
def Contains (s substr : GoString) : Bool := decide (substr <:+: s)

/-- The function `strings.TrimSpace`: `s` without leading and trailing white space, for
a string that is valid UTF-8. -/
def TrimSpace (s : String) : String :=
  String.mk ((s.data.dropWhile unicode.IsSpace).reverse.dropWhile unicode.IsSpace).reverse

/-- The function `strings.ToLower`: every rune mapped through `unicode.ToLower` and
written back as a rune, a byte that belongs to no valid encoding counting as
`utf8.RuneError`, as in `strings.Map`. -/
def ToLower (caseTable : Char → Char) (s : GoString) : GoString :=
  s.map (fun r => GoRune.rune (unicode.ToLower caseTable r.toRune))

end strings

/-! ## Errors and package `fmt` -/

/-- A non-nil Go `error` value.  `errorString` is what `errors.New` and a `fmt.Errorf`
without `%w` build; `wrapError` is what `fmt.Errorf` builds for a format with one `%w`:
the formatted message and the wrapped error. -/
inductive GoError where
  | errorString (s : GoString)
  | wrapError (msg : GoString) (err : GoError)
  deriving DecidableEq, Repr

namespace GoError

/-- The method `Error()` of the `error` interface. -/
def Error : GoError → GoString
  | errorString s => s
  | wrapError msg _ => msg

end GoError

namespace fmt

/-- Decimal digits of a natural number, most significant first, onto `acc`. -/
def fmtDigits : Nat → Nat → List Char → List Char
  | 0, _, acc => acc
  | fuel + 1, n, acc =>
    if n < 10 then Char.ofNat (48 + n) :: acc
    else fmtDigits fuel (n / 10) (Char.ofNat (48 + n % 10) :: acc)

/-- The verb `%d` applied to a Go `int`. -/
def fmtInt : Int → String
  | Int.ofNat n => String.mk (fmtDigits (n + 1) n [])
  | Int.negSucc n => String.mk ('-' :: fmtDigits (n + 2) (n + 1) [])

/-- The call `fmt.Errorf(pre + "%w", err)`. -/
def Errorf_w (pre : GoString) (err : GoError) : GoError :=
  GoError.wrapError (pre ++ err.Error) err

/-- The call `fmt.Errorf(pre + "%d", n)`. -/
def Errorf_d (pre : GoString) (n : Int) : GoError :=
  GoError.errorString (pre ++ fmtInt n)

/-- The call `fmt.Errorf(pre + "%s", s)`. -/
def Errorf_s (pre : GoString) (s : GoString) : GoError :=
  GoError.errorString (pre ++ s)

end fmt

/-! ## Package `domain` -/

namespace domain

/-- Modelled from the spec: the struct `domain.Address`, whose declaration is not among
the sources.  Ten string fields, named as the tests of the repository name them; their
JSON names are `cep, logradouro, complemento, bairro, localidade, uf, ibge, gia, ddd,
siafi`, in this order, and an empty field is written as an empty string. -/
structure Address where
  CEP : String
  Logradouro : String
  Complemento : String
  Bairro : String
  Localidade : String
  UF : String
  IBGE : String
  GIA : String
  DDD : String
  SIAFI : String
  deriving DecidableEq, Repr

/-- The zero value of `Address`, what `var address domain.Address` declares. -/
def Address.zero : Address := ⟨"", "", "", "", "", "", "", "", "", ""⟩

/-- The JSON names of the fields with their values, in declaration order. -/
def Address.fields (a : Address) : List (String × String) :=
  [("cep", a.CEP), ("logradouro", a.Logradouro), ("complemento", a.Complemento),
   ("bairro", a.Bairro), ("localidade", a.Localidade), ("uf", a.UF), ("ibge", a.IBGE),
   ("gia", a.GIA), ("ddd", a.DDD), ("siafi", a.SIAFI)]

/-- The field with JSON name `name` set to `v`; other names leave the record as it is. -/
def Address.set (a : Address) (name : String) (v : String) : Address :=
  if name = "cep" then { a with CEP := v }
  else if name = "logradouro" then { a with Logradouro := v }
  else if name = "complemento" then { a with Complemento := v }
  else if name = "bairro" then { a with Bairro := v }
  else if name = "localidade" then { a with Localidade := v }
  else if name = "uf" then { a with UF := v }
  else if name = "ibge" then { a with IBGE := v }
  else if name = "gia" then { a with GIA := v }
  else if name = "ddd" then { a with DDD := v }
  else if name = "siafi" then { a with SIAFI := v }
  else a

/-- The JSON names of the fields of `Address`. -/
def Address.names : List String :=
  ["cep", "logradouro", "complemento", "bairro", "localidade", "uf", "ibge", "gia", "ddd",
   "siafi"]

end domain

/-! ## Package `encoding/json`: writing -/

namespace json

/-- A parsed JSON text.  A number keeps its literal. -/
inductive Value where
  | null
  | bool (b : Bool)
  | number (lit : String)
  | string (s : String)
  | array (elems : List Value)
  | object (members : List (String × Value))

/-- The digit table `hex` of the encoder. -/
def hex (n : Nat) : Char :=
  if n < 10 then Char.ofNat (48 + n) else Char.ofNat (87 + n)

/-- The table `htmlSafeSet`: the ASCII runes the encoder copies unescaped. -/
def htmlSafe (c : Char) : Bool :=
  decide (0x20 ≤ c.toNat) && c != '"' && c != '&' && c != '<' && c != '>' && c != '\\'

/-- A validly encoded rune of a string as `appendString` writes it (HTML escaping on,
as an `Encoder` has it by default). -/
def escapeRune (c : Char) : List Char :=
  if c.toNat < 0x80 then
    if htmlSafe c then [c]
    else if c = '\\' ∨ c = '"' then ['\\', c]
    else if c = '\x08' then ['\\', 'b']
    else if c = '\x0c' then ['\\', 'f']
    else if c = '\n' then ['\\', 'n']
    else if c = '\r' then ['\\', 'r']
    else if c = '\t' then ['\\', 't']
    else ['\\', 'u', '0', '0', hex (c.toNat / 16), hex (c.toNat % 16)]
  else if c = '\u2028' ∨ c = '\u2029' then ['\\', 'u', '2', '0', '2', hex (c.toNat % 16)]
  else [c]

/-- One element of a string as `appendString` writes it: a validly encoded rune escaped
as needed, a byte that belongs to no valid encoding as the six characters `\ufffd`. -/
def appendRune : GoRune → List Char
  | GoRune.rune c => escapeRune c
  | GoRune.byte _ => ['\\', 'u', 'f', 'f', 'f', 'd']

/-- The elements of a string, escaped, without the surrounding quotes. -/
def appendRunes : GoString → List Char
  | [] => []
  | r :: rs => appendRune r ++ appendRunes rs

/-- The function `appendString`: a quoted JSON string literal. -/
def appendString (src : GoString) : List Char :=
  '"' :: (appendRunes src ++ ['"'])

/-- The members of an object with string values, comma separated. -/
def appendMembers : List (GoString × GoString) → List Char
  | [] => []
  | [(k, v)] => appendString k ++ ':' :: appendString v
  | (k, v) :: m :: ms =>
    appendString k ++ ':' :: (appendString v ++ ',' :: appendMembers (m :: ms))

/-- An object with string values, as the struct and map encoders write it. -/
def appendObject (members : List (GoString × GoString)) : List Char :=
  '\x7b' :: (appendMembers members ++ ['\x7d'])

/-- The text `json.Marshal` gives for a `*domain.Address`: `null` for a nil pointer. -/
def MarshalAddress : Option domain.Address → String
  | none => "null"
  | some a => String.mk (appendObject (a.fields.map (fun kv => (↑kv.1, ↑kv.2))))

/-- The text `json.Marshal` gives for a `map[string]string` with the single key `error`. -/
def MarshalErrorMap (msg : GoString) : String :=
  String.mk (appendObject [("error", msg)])

end json

/-! ## Package `encoding/json`: reading -/

namespace utf16

/-- The function `utf16.IsSurrogate`. -/
def IsSurrogate (r : Nat) : Bool := decide (0xd800 ≤ r ∧ r < 0xe000)

/-- The function `utf16.DecodeRune`: the rune of a surrogate pair, `none` standing for
the replacement rune it returns for anything else. -/
def DecodeRune (r1 : Nat) (r2 : Option Nat) : Option Char :=
  match r2 with
  | none => none
  | some r2 =>
    if 0xd800 ≤ r1 ∧ r1 < 0xdc00 ∧ 0xdc00 ≤ r2 ∧ r2 < 0xe000 then
      some (Char.ofNat ((r1 - 0xd800) * 0x400 + (r2 - 0xdc00) + 0x10000))
    else none

end utf16

namespace json

/-- The outcome of reading a prefix of the input: what was read and the input left, or
the message of the error.  The messages follow the wording of `encoding/json` without
reproducing its quoting of the offending byte. -/
abbrev Scan (α : Type) := Except String (α × List Char)

deriving instance DecidableEq for Except

/-- Put a rune in front of the text read by the rest of a scan. -/
def Scan.cons (c : Char) : Scan (List Char) → Scan (List Char)
  | .ok (s, rest) => .ok (c :: s, rest)
  | .error e => .error e

/-- The function `isSpace` of the scanner. -/
def isSpace (c : Char) : Bool := c == ' ' || c == '\t' || c == '\r' || c == '\n'

/-- Drop leading white space. -/
def skipSpace : List Char → List Char
  | [] => []
  | c :: cs => if isSpace c then skipSpace cs else c :: cs

/-- The value of a hexadecimal digit. -/
def hexVal (c : Char) : Option Nat :=
  if '0'.toNat ≤ c.toNat ∧ c.toNat ≤ '9'.toNat then some (c.toNat - '0'.toNat)
  else if 'a'.toNat ≤ c.toNat ∧ c.toNat ≤ 'f'.toNat then some (c.toNat - 'a'.toNat + 10)
  else if 'A'.toNat ≤ c.toNat ∧ c.toNat ≤ 'F'.toNat then some (c.toNat - 'A'.toNat + 10)
  else none

/-- The function `getu4`: the number written by a leading `\uXXXX`, if there is one. -/
def getu4 : List Char → Option Nat
  | b :: u :: h1 :: h2 :: h3 :: h4 :: _ =>
    if b = '\\' ∧ u = 'u' then
      match hexVal h1, hexVal h2, hexVal h3, hexVal h4 with
      | some a, some b, some c, some d => some (((a * 16 + b) * 16 + c) * 16 + d)
      | _, _, _, _ => none
    else none
  | _ => none

/-- The rune a one-letter escape stands for. -/
def unescape (e : Char) : Option Char :=
  if e = '"' then some '"'
  else if e = '\\' then some '\\'
  else if e = '/' then some '/'
  else if e = 'b' then some '\x08'
  else if e = 'f' then some '\x0c'
  else if e = 'n' then some '\n'
  else if e = 'r' then some '\r'
  else if e = 't' then some '\t'
  else none

/-- What a backslash escape stands for and how many runes after the backslash it takes
up, given the text after the backslash.  A `\u` escape that is half of a surrogate pair
without its partner becomes the replacement rune. -/
def scanEscape (cs : List Char) : Except String (Char × Nat) :=
  match cs with
  | [] => .error "unexpected EOF"
  | e :: cs1 =>
    if e = 'u' then
      if cs1.length < 4 then .error "unexpected EOF"
      else
        match getu4 ('\\' :: cs) with
        | none => .error "invalid character in \\u hexadecimal character escape"
        | some rr =>
          if utf16.IsSurrogate rr then
            match utf16.DecodeRune rr (getu4 (cs1.drop 4)) with
            | some dec => .ok (dec, 11)
            | none => .ok ('\ufffd', 5)
          else .ok (Char.ofNat rr, 5)
    else
      match unescape e with
      | some x => .ok (x, 1)
      | none => .error "invalid character in string escape code"

/-- A string literal after its opening quote: the scanner's check of the literal and
`unquote` in one pass.  `skip` counts the runes of an escape still to be passed over. -/
def scanString : List Char → Nat → Scan (List Char)
  | [], _ => .error "unexpected EOF"
  | _ :: cs, skip + 1 => scanString cs skip
  | c :: cs, 0 =>
    if c = '"' then .ok ([], cs)
    else if c = '\\' then
      match scanEscape cs with
      | .error e => .error e
      | .ok (x, n) => Scan.cons x (scanString cs n)
    else if c.toNat < 0x20 then .error "invalid character in string literal"
    else Scan.cons c (scanString cs 0)

/-- The digits at the head of the input and the input after them. -/
def scanDigits (cs : List Char) : List Char × List Char :=
  (cs.takeWhile Char.isDigit, cs.dropWhile Char.isDigit)

/-- An optional fraction: a point followed by at least one digit. -/
def scanFrac (cs : List Char) : Scan (List Char) :=
  match cs with
  | [] => .ok ([], [])
  | c :: t =>
    if c = '.' then
      match scanDigits t with
      | ([], []) => .error "unexpected EOF"
      | ([], _ :: _) => .error "invalid character after decimal point in numeric literal"
      | (d :: ds, rest) => .ok (c :: d :: ds, rest)
    else .ok ([], c :: t)

/-- An optional exponent: `e` or `E`, an optional sign, at least one digit. -/
def scanExp (cs : List Char) : Scan (List Char) :=
  match cs with
  | [] => .ok ([], [])
  | c :: t =>
    if c = 'e' ∨ c = 'E' then
      let signed : List Char × List Char :=
        match t with
        | [] => ([], [])
        | g :: t1 => if g = '+' ∨ g = '-' then ([g], t1) else ([], g :: t1)
      match scanDigits signed.2 with
      | ([], []) => .error "unexpected EOF"
      | ([], _ :: _) => .error "invalid character in exponent of numeric literal"
      | (d :: ds, rest) => .ok (c :: (signed.1 ++ d :: ds), rest)
    else .ok ([], c :: t)

/-- The integer part of a number: `0`, or a digit from 1 to 9 followed by digits. -/
def scanInt (cs : List Char) : Scan (List Char) :=
  match cs with
  | [] => .error "unexpected EOF"
  | d :: t =>
    if d = '0' then .ok ([d], t)
    else if d.isDigit then .ok (d :: (scanDigits t).1, (scanDigits t).2)
    else .error "invalid character in numeric literal"

/-- A number literal. -/
def scanNumber (cs : List Char) : Scan (List Char) :=
  let signed : List Char × List Char :=
    match cs with
    | [] => ([], [])
    | g :: t => if g = '-' then ([g], t) else ([], g :: t)
  match scanInt signed.2 with
  | .error e => .error e
  | .ok (int, r1) =>
    match scanFrac r1 with
    | .error e => .error e
    | .ok (frac, r2) =>
      match scanExp r2 with
      | .error e => .error e
      | .ok (exp, r3) => .ok (signed.1 ++ int ++ frac ++ exp, r3)

/-- One of the literals `true`, `false`, `null`. -/
def scanLiteral (lit : List Char) (v : Value) (cs : List Char) : Scan Value :=
  if lit.isPrefixOf cs then .ok (v, cs.drop lit.length)
  else if cs.length < lit.length then .error "unexpected EOF"
  else .error "invalid character in literal"

mutual

/-- The next JSON value of the input.  `fuel` bounds the number of nested values and of
members read: a unit of it is spent only after a rune of the input is consumed, and the
callers supply the length of the text plus one.  The depth limit of the Go decoder is
not modelled. -/
def parseValue : Nat → List Char → Scan Value
  | 0, _ => .error "exceeded max depth"
  | fuel + 1, cs =>
    match skipSpace cs with
    | [] => .error "unexpected EOF"
    | c :: t =>
      if c = '\x7b' then
        match skipSpace t with
        | [] => .error "unexpected EOF"
        | d :: t1 =>
          if d = '\x7d' then .ok (Value.object [], t1)
          else
            match parseMembers fuel (d :: t1) with
            | .error e => .error e
            | .ok (ms, rest) => .ok (Value.object ms, rest)
      else if c = '[' then
        match skipSpace t with
        | [] => .error "unexpected EOF"
        | d :: t1 =>
          if d = ']' then .ok (Value.array [], t1)
          else
            match parseElements fuel (d :: t1) with
            | .error e => .error e
            | .ok (vs, rest) => .ok (Value.array vs, rest)
      else if c = '"' then
        match scanString t 0 with
        | .error e => .error e
        | .ok (str, rest) => .ok (Value.string (String.mk str), rest)
      else if c = 't' then scanLiteral "true".data (Value.bool true) (c :: t)
      else if c = 'f' then scanLiteral "false".data (Value.bool false) (c :: t)
      else if c = 'n' then scanLiteral "null".data Value.null (c :: t)
      else if c = '-' ∨ c.isDigit then
        match scanNumber (c :: t) with
        | .error e => .error e
        | .ok (lit, rest) => .ok (Value.number (String.mk lit), rest)
      else .error "invalid character looking for beginning of value"

/-- The members of an object after its opening brace, up to the closing brace. -/
def parseMembers : Nat → List Char → Scan (List (String × Value))
  | 0, _ => .error "exceeded max depth"
  | fuel + 1, cs =>
    match skipSpace cs with
    | [] => .error "unexpected EOF"
    | q :: t =>
      if q = '"' then
        match scanString t 0 with
        | .error e => .error e
        | .ok (key, r) =>
          match skipSpace r with
          | [] => .error "unexpected EOF"
          | colon :: r1 =>
            if colon = ':' then
              match parseValue fuel r1 with
              | .error e => .error e
              | .ok (v, r2) =>
                match skipSpace r2 with
                | [] => .error "unexpected EOF"
                | sep :: r3 =>
                  if sep = ',' then
                    match parseMembers fuel r3 with
                    | .error e => .error e
                    | .ok (ms, rest) => .ok ((String.mk key, v) :: ms, rest)
                  else if sep = '\x7d' then .ok ([(String.mk key, v)], r3)
                  else .error "invalid character after object key:value pair"
            else .error "invalid character after object key"
      else .error "invalid character looking for beginning of object key string"

/-- The elements of an array after its opening bracket, up to the closing bracket. -/
def parseElements : Nat → List Char → Scan (List Value)
  | 0, _ => .error "exceeded max depth"
  | fuel + 1, cs =>
    match parseValue fuel cs with
    | .error e => .error e
    | .ok (v, r) =>
      match skipSpace r with
      | [] => .error "unexpected EOF"
      | sep :: r1 =>
        if sep = ',' then
          match parseElements fuel r1 with
          | .error e => .error e
          | .ok (vs, rest) => .ok (v :: vs, rest)
        else if sep = ']' then .ok ([v], r1)
        else .error "invalid character after array element"

end

/-- The first JSON value of a text, as `Decoder.Decode` reads it: what follows the value
is left unread.  A text of white space only is the error `io.EOF`. -/
def decodeValue (data : String) : Except GoError Value :=
  match skipSpace data.data with
  | [] => .error (GoError.errorString "EOF")
  | c :: cs =>
    match parseValue (data.length + 1) (c :: cs) with
    | .error e => .error (GoError.errorString e)
    | .ok (v, _) => .ok v

/-- The JSON value a whole text consists of, as `json.Unmarshal` reads it: only white
space may follow the value. -/
def unmarshalValue (data : String) : Except GoError Value :=
  match parseValue (data.length + 1) data.data with
  | .error e =>
    .error (GoError.errorString (if e = "unexpected EOF" then "unexpected end of JSON input" else e))
  | .ok (v, rest) =>
    match skipSpace rest with
    | [] => .ok v
    | _ :: _ => .error (GoError.errorString "invalid character after top-level value")

/-- The smallest rune of the case-folding orbit of `c`, as `foldName` uses it.  The
orbits that hold an ASCII letter are spelled out (they hold the long s and the Kelvin
sign); the runes of every other orbit are left in place, which changes no comparison
with an ASCII name. -/
def foldRune (c : Char) : Char :=
  if 'a'.toNat ≤ c.toNat ∧ c.toNat ≤ 'z'.toNat then Char.ofNat (c.toNat - ('a'.toNat - 'A'.toNat))
  else if c = '\u017f' then 'S'
  else if c = 'K' then 'K'
  else c

/-- The function `foldName`: equal results exactly for names equal under case folding. -/
def foldName (s : String) : String := String.mk (s.data.map foldRune)

/-- The field of `Address` an object key addresses: the field of that exact name, or
else the first field whose name equals the key under case folding. -/
def findField (key : String) : Option String :=
  if key ∈ domain.Address.names then some key
  else domain.Address.names.find? (fun name => foldName name == foldName key)

/-- The word an `UnmarshalTypeError` uses for a value. -/
def Value.kind : Value → String
  | .null => "null"
  | .bool _ => "bool"
  | .number _ => "number"
  | .string _ => "string"
  | .array _ => "array"
  | .object _ => "object"

/-- One member of an object stored into an `Address`.  A key that addresses no field is
skipped, a string is stored, `null` changes nothing, and any other value is recorded as
an `UnmarshalTypeError` unless an error is recorded already. -/
def storeMember (st : domain.Address × Option GoError) (m : String × Value) :
    domain.Address × Option GoError :=
  match findField m.1 with
  | none => st
  | some name =>
    match m.2 with
    | Value.string v => (st.1.set name v, st.2)
    | Value.null => st
    | other =>
      match st.2 with
      | some _ => st
      | none =>
        (st.1, some (GoError.errorString ("json: cannot unmarshal " ++ other.kind ++
          " into Go struct field Address." ++ name ++ " of type string")))

/-- A JSON value stored into an `Address`: the record after the call and its error. -/
def storeValue (v : Value) (a : domain.Address) : domain.Address × Option GoError :=
  match v with
  | Value.null => (a, none)
  | Value.object ms => ms.foldl storeMember (a, none)
  | other =>
    (a, some (GoError.errorString ("json: cannot unmarshal " ++ other.kind ++
      " into Go value of type domain.Address")))

/-- The call `json.NewDecoder(body).Decode(&a)`: the record after the call and the error
returned. -/
def Decode (body : String) (a : domain.Address) : domain.Address × Option GoError :=
  match decodeValue body with
  | .error e => (a, some e)
  | .ok v => storeValue v a

/-- The call `json.Unmarshal(data, &a)`: the record after the call and the error
returned. -/
def Unmarshal (data : String) (a : domain.Address) : domain.Address × Option GoError :=
  match unmarshalValue data with
  | .error e => (a, some e)
  | .ok v => storeValue v a

end json

/-! ## Package `net/http` -/

namespace http

def StatusOK : Nat := 200
def StatusBadRequest : Nat := 400
def StatusNotFound : Nat := 404
def StatusInternalServerError : Nat := 500

/-- The header map of a response. -/
abbrev Header := List (String × String)

/-- The method `Header.Del`. -/
def Header.Del (h : Header) (key : String) : Header := h.filter (fun kv => kv.1 != key)

/-- The method `Header.Set`. -/
def Header.Set (h : Header) (key value : String) : Header := Header.Del h key ++ [(key, value)]

/-- The method `Header.Get`: the value of the key, the empty string without one. -/
def Header.Get (h : Header) (key : String) : String :=
  match h.find? (fun kv => kv.1 == key) with
  | some kv => kv.2
  | none => ""

/-- The state of an `http.ResponseWriter`, as `httptest.ResponseRecorder` keeps it:
the header map the handler edits, whether the status line is written, the status code,
the header map as it stood when the status line was written, and the body so far. -/
structure ResponseWriter where
  header : Header
  wroteHeader : Bool
  Code : Nat
  sent : Header
  Body : String
  deriving DecidableEq, Repr

/-- The function `httptest.NewRecorder`. -/
def NewRecorder : ResponseWriter := ⟨[], false, 200, [], ""⟩

/-- The method `WriteHeader`: the first call fixes the status code and the headers. -/
def ResponseWriter.WriteHeader (w : ResponseWriter) (code : Nat) : ResponseWriter :=
  if w.wroteHeader then w
  else { w with wroteHeader := true, Code := code, sent := w.header }

/-- The method `Write`: an implicit `WriteHeader(StatusOK)` if none came before. -/
def ResponseWriter.Write (w : ResponseWriter) (b : String) : ResponseWriter :=
  let w1 := w.WriteHeader StatusOK
  { w1 with Body := w1.Body ++ b }

/-- The method `w.Header().Set`. -/
def ResponseWriter.SetHeader (w : ResponseWriter) (key value : String) : ResponseWriter :=
  { w with header := Header.Set w.header key value }

/-- The function `http.Error`: a plain-text reply of the given status whose body is the
message followed by a newline. -/
def Error (w : ResponseWriter) (error : String) (code : Nat) : ResponseWriter :=
  let w1 : ResponseWriter := { w with header := Header.Del w.header "Content-Length" }
  let w2 := w1.SetHeader "Content-Type" "text/plain; charset=utf-8"
  let w3 := w2.SetHeader "X-Content-Type-Options" "nosniff"
  (w3.WriteHeader code).Write (error ++ "\n")

/-- What `httpClient.Do` hands back on success: the fields of `*http.Response` the
client reads, the body being the whole text the upstream sent. -/
structure Response where
  StatusCode : Int
  Body : String
  deriving DecidableEq, Repr

/-- An `*http.Client`: what `Do` returns for a GET of a URL. -/
structure Client where
  Do : GoString → Except GoError Response

end http

namespace json

/-- The call `json.NewEncoder(w).Encode(address)` for a `*domain.Address`. -/
def EncodeAddress (w : http.ResponseWriter) (address : Option domain.Address) :
    http.ResponseWriter :=
  w.Write (MarshalAddress address ++ "\n")

/-- The call `json.NewEncoder(w).Encode(map[string]string\x7b"error": msg\x7d)`. -/
def EncodeErrorMap (w : http.ResponseWriter) (msg : GoString) : http.ResponseWriter :=
  w.Write (MarshalErrorMap msg ++ "\n")

end json

/-! ## interfaces/services: the upstream client -/

namespace services

/-- The interface `ViaCepClient`: the method `FetchAddressFromViaCep`. -/
abbrev ViaCepClient := GoString → Option domain.Address × Option GoError

/-- The URL the client asks: `fmt.Sprintf("https://viacep.com.br/ws/%s/json/", cep)`. -/
def requestURL (cep : GoString) : GoString := "https://viacep.com.br/ws/" ++ cep ++ "/json/"

/-- The struct `viaCepClientImpl`. -/
structure viaCepClientImpl where
  httpClient : http.Client

/-- The method `FetchAddressFromViaCep` of `viaCepClientImpl`.  `NewRequest` gives the
error of `http.NewRequest("GET", url, nil)`, if the URL is one it refuses.  The deferred
`resp.Body.Close()` leaves no trace in the result. -/
def viaCepClientImpl.FetchAddressFromViaCep (NewRequest : GoString → Option GoError)
    (c : viaCepClientImpl) (cep : GoString) : Option domain.Address × Option GoError :=
  let url := requestURL cep
  match NewRequest url with
  | some err => (none, some (fmt.Errorf_w "failed to create request: " err))
  | none =>
    match c.httpClient.Do url with
    | .error err => (none, some (fmt.Errorf_w "failed to execute request: " err))
    | .ok resp =>
      if resp.StatusCode ≠ http.StatusOK then
        (none, some (fmt.Errorf_d "request failed with status code: " resp.StatusCode))
      else
        match json.Decode resp.Body domain.Address.zero with
        | (_, some err) => (none, some (fmt.Errorf_w "failed to decode response body: " err))
        | (address, none) =>
          if address.CEP = "" then
            (none, some (fmt.Errorf_s "address not found for CEP: " cep))
          else (some address, none)

/-- The function `NewViaCepClientWithHttpClient`. -/
def NewViaCepClientWithHttpClient (NewRequest : GoString → Option GoError)
    (client : http.Client) : ViaCepClient :=
  viaCepClientImpl.FetchAddressFromViaCep NewRequest ⟨client⟩

/-- The struct `ViaCepClientMock` with its method: the configured pair, whatever the
code. -/
def ViaCepClientMock (MockAddress : Option domain.Address) (MockError : Option GoError) :
    ViaCepClient :=
  fun _ => (MockAddress, MockError)

end services

/-! ## usecase: the service -/

namespace usecase

/-- The interface `CepService`: the method `GetAddressByCep`. -/
abbrev CepService := GoString → Option domain.Address × Option GoError

/-- The struct `cepServiceImpl`. -/
structure cepServiceImpl where
  client : services.ViaCepClient

/-- The method `GetAddressByCep` of `cepServiceImpl`. -/
def cepServiceImpl.GetAddressByCep (s : cepServiceImpl) (cep : GoString) :
    Option domain.Address × Option GoError :=
  match s.client cep with
  | (_, some err) => (none, some err)
  | (address, none) => (address, none)

/-- The function `NewCepService`. -/
def NewCepService (client : services.ViaCepClient) : CepService :=
  cepServiceImpl.GetAddressByCep ⟨client⟩

/-- The struct `CepServiceMock` with its method: the configured pair, whatever the
code. -/
def CepServiceMock (MockAddress : Option domain.Address) (MockError : Option GoError) :
    CepService :=
  fun _ => (MockAddress, MockError)

end usecase

/-! ## interfaces/http: the request handler -/

namespace handler

/-- The struct `CepHandler`. -/
structure CepHandler where
  service : usecase.CepService

/-- What a run of the handler leaves behind: the response writer, and the codes the
service was called with, in order. -/
structure Run where
  w : http.ResponseWriter
  serviceCalls : List GoString
  deriving DecidableEq, Repr

/-- The body of the reply to a request without a code. -/
def usage : String :=
  "\x7b\"error\": \"CEP must be provided in the URL path, e.g., /cep/01001000\"\x7d"

/-- The method `GetAddressByCepHandler` of `CepHandler`, on a request whose `URL.Path`
is `path`.  Writing an address or an error map to the recorder cannot fail, so the
branch that logs an encoding failure has no counterpart here. -/
def CepHandler.GetAddressByCepHandler (caseTable : Char → Char) (h : CepHandler)
    (w : http.ResponseWriter) (path : GoString) : Run :=
  let cep := strings.TrimPrefix path "/cep/"
  if cep = "" ∨ cep = path then
    ⟨http.Error w usage http.StatusBadRequest, []⟩
  else
    match h.service cep with
    | (_, some err) =>
      if strings.Contains (strings.ToLower caseTable err.Error) "not found" ||
          strings.Contains (strings.ToLower caseTable err.Error) "failed to decode response body" then
        let w1 := w.SetHeader "Content-Type" "application/json"
        let w2 := w1.WriteHeader http.StatusNotFound
        ⟨json.EncodeErrorMap w2 ("Address not found for CEP: " ++ cep), [cep]⟩
      else
        let w1 := w.SetHeader "Content-Type" "application/json"
        let w2 := w1.WriteHeader http.StatusInternalServerError
        ⟨json.EncodeErrorMap w2 "Internal server error", [cep]⟩
    | (address, none) =>
      let w1 := w.SetHeader "Content-Type" "application/json"
      let w2 := w1.WriteHeader http.StatusOK
      ⟨json.EncodeAddress w2 address, [cep]⟩

/-- The function `NewCepHandler`. -/
def NewCepHandler (service : usecase.CepService) : CepHandler := ⟨service⟩

/-- The handler over the service over the client, wired as `main` wires them, for a
given HTTP client. -/
def serve (caseTable : Char → Char) (NewRequest : GoString → Option GoError)
    (client : http.Client) (w : http.ResponseWriter) (path : GoString) : Run :=
  (NewCepHandler (usecase.NewCepService
    (services.NewViaCepClientWithHttpClient NewRequest client))).GetAddressByCepHandler
      caseTable w path

end handler

/-! ## Go strings that are valid UTF-8 -/

theorem GoString.text_ofString (s : String) : GoString.text (GoString.ofString s) = s := by
  apply String.ext
  have hid : GoRune.toRune ∘ GoRune.rune = id := rfl
  simp [GoString.text, GoString.runes, GoString.ofString, List.map_map, hid]

theorem GoString.ofString_append (a b : String) :
    GoString.ofString (a ++ b) = GoString.ofString a ++ GoString.ofString b := by
  simp [GoString.ofString]

theorem GoString.ofString_injective (a b : String)
    (h : GoString.ofString a = GoString.ofString b) : a = b := by
  have := congrArg GoString.text h
  simpa [GoString.text_ofString] using this

theorem GoString.text_append (a b : GoString) :
    GoString.text (a ++ b) = GoString.text a ++ GoString.text b := by
  apply String.ext
  simp [GoString.text, GoString.runes]

/-! ## The JSON reader reads back what the JSON writer wrote -/

namespace json

theorem hexVal_hex : ∀ k, k < 16 → hexVal (hex k) = some k := by decide

theorem scanString_skip (pre tail : List Char) :
    scanString (pre ++ tail) pre.length = scanString tail 0 := by
  induction pre with
  | nil => rfl
  | cons c cs ih => simpa [scanString] using ih

theorem scanString_escape_u (c : Char) (x y z : Char) (tail : List Char) (hs : utf16.IsSurrogate c.toNat = false)
    (hu : getu4 ['\\', 'u', x, y, z, hex (c.toNat % 16)] = some c.toNat) :
    scanString ('\\' :: 'u' :: x :: y :: z :: hex (c.toNat % 16) :: tail) 0
      = Scan.cons c (scanString tail 0) := by
  have hg : getu4 ('\\' :: 'u' :: x :: y :: z :: hex (c.toNat % 16) :: tail) = some c.toNat := by
    simpa [getu4] using hu
  have hk := scanString_skip ['u', x, y, z, hex (c.toNat % 16)] tail
  have hk5 : scanString ('u' :: x :: y :: z :: hex (c.toNat % 16) :: tail) 5
      = scanString tail 0 := hk
  have hlen : ¬ (tail.length + 1 + 1 + 1 + 1 < 4) := by omega
  simp [scanString, scanEscape, hg, hs, hk5, hlen, Char.ofNat_toNat]

theorem scanString_escapeRune (c : Char) (tail : List Char) :
    scanString (escapeRune c ++ tail) 0 = Scan.cons c (scanString tail 0) := by
  unfold escapeRune
  split_ifs with h1 h2 h3 h4 h5 h6 h7 h8 h9
  · simp [htmlSafe] at h2
    simp [scanString, h2]
  · rcases h3 with h3 | h3 <;> subst h3 <;> simp [scanString, scanEscape, unescape]
  · subst h4; simp [scanString, scanEscape, unescape]
  · subst h5; simp [scanString, scanEscape, unescape]
  · subst h6; simp [scanString, scanEscape, unescape]
  · subst h7; simp [scanString, scanEscape, unescape]
  · subst h8; simp [scanString, scanEscape, unescape]
  · have hlt : c.toNat / 16 < 16 := by omega
    have hlt2 : c.toNat % 16 < 16 := by omega
    apply scanString_escape_u
    · simp [utf16.IsSurrogate]; omega
    · have h0 : hexVal '0' = some 0 := by decide
      simp only [getu4, hexVal_hex _ hlt, hexVal_hex _ hlt2, h0, and_self, if_true]
      congr 1
      omega
  · have hn : c.toNat = 0x2028 ∨ c.toNat = 0x2029 := by
      rcases h9 with h | h <;> subst h <;> decide
    rcases h9 with h | h <;> subst h
    · exact scanString_escape_u _ '2' '0' '2' tail (by decide) (by decide)
    · exact scanString_escape_u _ '2' '0' '2' tail (by decide) (by decide)
  · have hq : c ≠ '"' := by rintro rfl; exact h1 (by decide)
    have hb : c ≠ '\\' := by rintro rfl; exact h1 (by decide)
    have hl : ¬ c.toNat < 0x20 := by omega
    simp [scanString, hq, hb, hl]

/-- Every element of a string, as written, reads back as the rune that ranging over
the string yields for it: a byte that belongs to no valid encoding comes back as
U+FFFD. -/
theorem scanString_appendRune (r : GoRune) (tail : List Char) :
    scanString (appendRune r ++ tail) 0 = Scan.cons r.toRune (scanString tail 0) := by
  cases r with
  | rune c => exact scanString_escapeRune c tail
  | byte b => exact scanString_escape_u '\ufffd' 'f' 'f' 'f' tail (by decide) (by decide)

theorem scanString_appendRunes (s : GoString) (rest : List Char) :
    scanString (appendRunes s ++ '"' :: rest) 0 = .ok (s.runes, rest) := by
  induction s with
  | nil => simp [appendRunes, scanString, GoString.runes]
  | cons c cs ih =>
    simp only [GoString.runes] at ih
    simp [appendRunes, List.append_assoc, scanString_appendRune, ih, Scan.cons,
      GoString.runes]

theorem scanString_appendString (s : GoString) (rest : List Char) :
    ∃ t, appendString s ++ rest = '"' :: t ∧ scanString t 0 = .ok (s.runes, rest) :=
  ⟨appendRunes s ++ '"' :: rest, by simp [appendString], scanString_appendRunes _ _⟩

theorem parseValue_appendString (fuel : Nat) (s : GoString) (rest : List Char) :
    parseValue (fuel + 1) (appendString s ++ rest) = .ok (Value.string s.text, rest) := by
  obtain ⟨t, ht, hs⟩ := scanString_appendString s rest
  rw [ht]
  simp [parseValue, skipSpace, isSpace, hs, GoString.text]

theorem parseMembers_appendMembers (ms : List (GoString × GoString)) :
    ∀ (fuel : Nat) (rest : List Char), ms ≠ [] → ms.length + 1 ≤ fuel →
      parseMembers fuel (appendMembers ms ++ '\x7d' :: rest)
        = .ok (ms.map (fun kv => (kv.1.text, Value.string kv.2.text)), rest) := by
  induction ms with
  | nil => intro _ _ h; exact absurd rfl h
  | cons m ms ih =>
    intro fuel rest _ hfuel
    obtain ⟨k, v⟩ := m
    obtain ⟨f, rfl⟩ : ∃ f, fuel = f + 2 := ⟨fuel - 2, by simp at hfuel; omega⟩
    cases ms with
    | nil =>
      obtain ⟨t, ht, hs⟩ := scanString_appendString k (':' :: (appendString v ++ '\x7d' :: rest))
      have hv := parseValue_appendString f v ('\x7d' :: rest)
      simp only [appendMembers, List.append_assoc, List.cons_append] at ht ⊢
      rw [ht]
      simp [parseMembers, skipSpace, isSpace, hs, hv, GoString.text]
    | cons m2 ms2 =>
      have ih2 := ih (f + 1) rest (by simp) (by simp at hfuel ⊢; omega)
      obtain ⟨t, ht, hs⟩ := scanString_appendString k
        (':' :: (appendString v ++ ',' :: (appendMembers (m2 :: ms2) ++ '\x7d' :: rest)))
      have hv := parseValue_appendString f v (',' :: (appendMembers (m2 :: ms2) ++ '\x7d' :: rest))
      simp only [appendMembers, List.append_assoc, List.cons_append] at ht ⊢
      rw [ht, parseMembers]
      simp [skipSpace, isSpace, hs, hv, ih2, GoString.text]

theorem appendString_ne_nil (s : GoString) (rest : List Char) :
    ∃ t, appendString s ++ rest = '"' :: t := ⟨_, rfl⟩

theorem parseValue_appendObject (ms : List (GoString × GoString)) (fuel : Nat) (rest : List Char)
    (hne : ms ≠ []) (hfuel : ms.length + 2 ≤ fuel) :
    parseValue fuel (appendObject ms ++ rest)
      = .ok (Value.object (ms.map (fun kv => (kv.1.text, Value.string kv.2.text))), rest) := by
  obtain ⟨f, rfl⟩ : ∃ f, fuel = f + 1 := ⟨fuel - 1, by omega⟩
  have hm := parseMembers_appendMembers ms f rest hne (by omega)
  obtain ⟨t, ht⟩ : ∃ t, appendMembers ms ++ '\x7d' :: rest = '"' :: t := by
    cases ms with
    | nil => exact absurd rfl hne
    | cons m ms2 =>
      obtain ⟨k, v⟩ := m
      cases ms2 <;> exact ⟨_, rfl⟩
  rw [ht] at hm
  simp [appendObject, parseValue, skipSpace, isSpace, ht, hm]

theorem length_le_appendMembers (ms : List (GoString × GoString)) :
    ms.length ≤ (appendMembers ms).length := by
  induction ms with
  | nil => simp
  | cons m ms ih =>
    obtain ⟨k, v⟩ := m
    cases ms with
    | nil => simp [appendMembers, appendString]
    | cons m2 ms2 =>
      simp only [appendMembers, appendString, List.length_cons, List.length_append] at ih ⊢
      omega

theorem unmarshalValue_appendObject (ms : List (GoString × GoString)) (hne : ms ≠ []) :
    unmarshalValue (String.mk (appendObject ms) ++ "\n")
      = .ok (Value.object (ms.map (fun kv => (kv.1.text, Value.string kv.2.text)))) := by
  have hlen := length_le_appendMembers ms
  have hd : (String.mk (appendObject ms) ++ "\n").data = appendObject ms ++ ['\n'] := by
    simp
  unfold unmarshalValue
  rw [hd, parseValue_appendObject ms _ ['\n'] hne (by simp [appendObject]; omega)]
  simp [skipSpace, isSpace]

theorem storeValue_fields (a a0 : domain.Address) :
    storeValue (Value.object ((a.fields.map
      (fun kv => ((↑kv.1 : GoString), (↑kv.2 : GoString)))).map
      (fun kv => (kv.1.text, Value.string kv.2.text)))) a0
      = (a, none) := by
  simp [storeValue, domain.Address.fields, storeMember, findField, domain.Address.names,
    domain.Address.set, GoString.text_ofString]

/-- Reading back with `json.Unmarshal` what the encoder wrote for an address gives that
address, whatever the record read into held before. -/
theorem Unmarshal_MarshalAddress (a a0 : domain.Address) :
    Unmarshal (MarshalAddress (some a) ++ "\n") a0 = (a, none) := by
  simp only [Unmarshal, MarshalAddress, unmarshalValue_appendObject
    (a.fields.map (fun kv => ((↑kv.1 : GoString), (↑kv.2 : GoString))))
    (by simp [domain.Address.fields])]
  exact storeValue_fields a a0

/-- The body written for an error message reads back as the object with the single
member `error` holding that message as text: with U+FFFD for every byte of the message
that belongs to no valid encoding. -/
theorem unmarshalValue_MarshalErrorMap (msg : GoString) :
    unmarshalValue (MarshalErrorMap msg ++ "\n")
      = .ok (Value.object [("error", Value.string msg.text)]) := by
  simpa [MarshalErrorMap, GoString.text_ofString] using
    unmarshalValue_appendObject [(↑"error", msg)] (by simp)

end json

/-! ## Facts about `strings` and `fmt` -/

namespace strings

theorem Contains_iff (s substr : GoString) :
    Contains s substr = true ↔ substr <:+: s := by
  simp [Contains]

theorem Contains_eq_false_iff (s substr : GoString) :
    Contains s substr = false ↔ ¬ substr <:+: s := by
  simp [Contains]

theorem ToLower_append (caseTable : Char → Char) (a b : GoString) :
    ToLower caseTable (a ++ b) = ToLower caseTable a ++ ToLower caseTable b := by
  simp [ToLower]

theorem ToLower_ofString (caseTable : Char → Char) (s : String) :
    ToLower caseTable (GoString.ofString s)
      = GoString.ofString (String.mk (s.data.map (unicode.ToLower caseTable))) := by
  simp [ToLower, GoString.ofString, List.map_map, Function.comp, GoRune.toRune]

/-- On a text of ASCII runes the case tables are not consulted. -/
theorem ToLower_ascii (caseTable : Char → Char) (s : String)
    (h : ∀ c ∈ s.data, c.toNat ≤ unicode.MaxASCII) :
    ToLower caseTable (GoString.ofString s) = ToLower id (GoString.ofString s) := by
  rw [ToLower_ofString, ToLower_ofString]
  congr 2
  apply List.map_congr_left
  intro c hc
  simp [unicode.ToLower, h c hc]

/-- An occurrence of a text whose last element does not occur in `d` lies, within
`p ++ d`, inside `p`. -/
theorem infix_of_last_not_mem {α : Type} (init : List α) (l : α) (p d : List α)
    (hl : l ∉ d) (h : init ++ [l] <:+: p ++ d) : init ++ [l] <:+: p := by
  obtain ⟨s, t, hst⟩ := h
  rcases List.append_eq_append_iff.mp hst with ⟨a, ha, _⟩ | ⟨c, hc, hd⟩
  · exact ⟨s, a, ha.symm⟩
  · rcases List.eq_nil_or_concat c with rfl | ⟨c2, x, rfl⟩
    · exact ⟨s, [], by simpa using hc⟩
    · exfalso
      have hx : l = x := by
        have h2 : (s ++ init) ++ [l] = (p ++ c2) ++ [x] := by
          simpa [List.append_assoc] using hc
        exact (List.append_inj' h2 rfl).2 |> List.singleton_inj.mp
      apply hl
      rw [hd, hx]
      simp

end strings

namespace fmt

theorem numeral_digit (n : Nat) (h : n < 10) :
    48 ≤ (Char.ofNat (48 + n)).toNat ∧ (Char.ofNat (48 + n)).toNat ≤ 57 := by
  interval_cases n <;> decide

theorem numeral_fmtDigits (fuel : Nat) :
    ∀ (n : Nat) (acc : List Char), (∀ c ∈ acc, 48 ≤ c.toNat ∧ c.toNat ≤ 57) →
      ∀ c ∈ fmtDigits fuel n acc, 48 ≤ c.toNat ∧ c.toNat ≤ 57 := by
  induction fuel with
  | zero => intro n acc hacc; simpa [fmtDigits] using hacc
  | succ f ih =>
    intro n acc hacc
    unfold fmtDigits
    split_ifs with h
    · intro c hc
      rcases List.mem_cons.mp hc with rfl | hc
      · exact numeral_digit n h
      · exact hacc c hc
    · apply ih
      intro c hc
      rcases List.mem_cons.mp hc with rfl | hc
      · exact numeral_digit _ (Nat.mod_lt _ (by decide))
      · exact hacc c hc

/-- What `%d` writes consists of digits and the minus sign. -/
theorem numeral_fmtInt (n : Int) :
    ∀ c ∈ (fmtInt n).data, c = '-' ∨ (48 ≤ c.toNat ∧ c.toNat ≤ 57) := by
  cases n with
  | ofNat n =>
    intro c hc
    exact Or.inr (numeral_fmtDigits _ _ _ (by simp) c hc)
  | negSucc n =>
    intro c hc
    rcases List.mem_cons.mp hc with rfl | hc
    · exact Or.inl rfl
    · exact Or.inr (numeral_fmtDigits _ _ _ (by simp) c hc)

theorem ToLower_numeral (caseTable : Char → Char) (c : Char)
    (h : c = '-' ∨ (48 ≤ c.toNat ∧ c.toNat ≤ 57)) : unicode.ToLower caseTable c = c := by
  have eA : 'A'.toNat = 65 := rfl
  unfold unicode.ToLower unicode.MaxASCII
  rcases h with rfl | ⟨h1, h2⟩
  · rw [if_pos (by decide), if_neg (by decide)]
  · rw [if_pos (by omega), if_neg (by rw [eA]; omega)]

theorem ToLower_fmtInt (caseTable : Char → Char) (n : Int) :
    strings.ToLower caseTable (GoString.ofString (fmtInt n)) = GoString.ofString (fmtInt n) := by
  rw [strings.ToLower_ofString]
  congr 1
  apply String.ext
  exact (List.map_congr_left
    (fun c hc => ToLower_numeral caseTable c (numeral_fmtInt n c hc))).trans (List.map_id _)

end fmt

/-! ## How the handler classifies the errors of the client -/

namespace services

theorem Contains_lower_prefix (caseTable : Char → Char) (pre rest substr : GoString)
    (h : strings.Contains (strings.ToLower caseTable pre) substr = true) :
    strings.Contains (strings.ToLower caseTable (pre ++ rest)) substr = true := by
  rw [strings.Contains_iff] at h ⊢
  rw [strings.ToLower_append]
  exact List.IsInfix.trans h (List.infix_append' [] _ _)

/-- The message of a decode error, lower-cased, contains the words the handler looks
for, whatever the wrapped error says. -/
theorem decode_error_classified (caseTable : Char → Char) (err : GoError) :
    strings.Contains (strings.ToLower caseTable
      (fmt.Errorf_w "failed to decode response body: " err).Error)
      "failed to decode response body" = true :=
  Contains_lower_prefix caseTable (GoString.ofString "failed to decode response body: ")
    err.Error (GoString.ofString "failed to decode response body")
    (by rw [strings.ToLower_ascii caseTable "failed to decode response body: " (by decide)]
        decide)

/-- The message of the client's not-found error, lower-cased, contains "not found". -/
theorem not_found_error_classified (caseTable : Char → Char) (cep : GoString) :
    strings.Contains (strings.ToLower caseTable
      (fmt.Errorf_s "address not found for CEP: " cep).Error) "not found" = true :=
  Contains_lower_prefix caseTable (GoString.ofString "address not found for CEP: ")
    cep (GoString.ofString "not found")
    (by rw [strings.ToLower_ascii caseTable "address not found for CEP: " (by decide)]
        decide)

/-- The message of a status error, lower-cased, contains neither of the texts the
handler looks for. -/
theorem status_error_not_classified (caseTable : Char → Char) (n : Int) :
    strings.Contains (strings.ToLower caseTable
      (fmt.Errorf_d "request failed with status code: " n).Error) "not found" = false ∧
    strings.Contains (strings.ToLower caseTable
      (fmt.Errorf_d "request failed with status code: " n).Error)
      "failed to decode response body" = false := by
  have hlow : strings.ToLower caseTable (fmt.Errorf_d "request failed with status code: " n).Error
      = GoString.ofString "request failed with status code: "
          ++ GoString.ofString (fmt.fmtInt n) := by
    simp only [fmt.Errorf_d, GoError.Error, strings.ToLower_append, fmt.ToLower_fmtInt]
    rw [strings.ToLower_ascii caseTable "request failed with status code: " (by decide)]
    congr 1
  have hd : GoRune.rune 'd' ∉ GoString.ofString (fmt.fmtInt n) := by
    intro hmem
    have hmem2 : 'd' ∈ (fmt.fmtInt n).data := by
      simpa [GoString.ofString] using hmem
    rcases fmt.numeral_fmtInt n _ hmem2 with h | h
    · exact absurd h (by decide)
    · have : 'd'.toNat = 100 := rfl
      omega
  have hy : GoRune.rune 'y' ∉ GoString.ofString (fmt.fmtInt n) := by
    intro hmem
    have hmem2 : 'y' ∈ (fmt.fmtInt n).data := by
      simpa [GoString.ofString] using hmem
    rcases fmt.numeral_fmtInt n _ hmem2 with h | h
    · exact absurd h (by decide)
    · have : 'y'.toNat = 121 := rfl
      omega
  rw [hlow, strings.Contains_eq_false_iff, strings.Contains_eq_false_iff]
  constructor
  · intro h
    have h2 := strings.infix_of_last_not_mem (GoString.ofString "not foun") (GoRune.rune 'd')
      (GoString.ofString "request failed with status code: ") _ hd h
    revert h2
    decide
  · intro h
    have h2 := strings.infix_of_last_not_mem
      (GoString.ofString "failed to decode response bod") (GoRune.rune 'y')
      (GoString.ofString "request failed with status code: ") _ hy h
    revert h2
    decide

/-- Whether the message of a transport error is classified as not-found depends on the
message of its cause alone: the words put in front of it contribute no occurrence. -/
theorem execute_error_classified (caseTable : Char → Char) (cause : GoError) :
    strings.Contains (strings.ToLower caseTable
        (fmt.Errorf_w "failed to execute request: " cause).Error) "not found"
      = strings.Contains (strings.ToLower caseTable cause.Error) "not found" ∧
    strings.Contains (strings.ToLower caseTable
        (fmt.Errorf_w "failed to execute request: " cause).Error)
        "failed to decode response body"
      = strings.Contains (strings.ToLower caseTable cause.Error)
          "failed to decode response body" := by
  have hlow : strings.ToLower caseTable (fmt.Errorf_w "failed to execute request: " cause).Error
      = GoString.ofString "failed to execute request: "
          ++ strings.ToLower caseTable cause.Error := by
    simp only [fmt.Errorf_w, GoError.Error, strings.ToLower_append]
    rw [strings.ToLower_ascii caseTable "failed to execute request: " (by decide)]
    congr 1
  have hp : "failed to execute request: ".data = ['f', 'a', 'i', 'l', 'e', 'd', ' ', 't', 'o',
      ' ', 'e', 'x', 'e', 'c', 'u', 't', 'e', ' ', 'r', 'e', 'q', 'u', 'e', 's', 't', ':', ' '] :=
    rfl
  have h1 : "not found".data = ['n', 'o', 't', ' ', 'f', 'o', 'u', 'n', 'd'] := rfl
  have h2 : "failed to decode response body".data = ['f', 'a', 'i', 'l', 'e', 'd', ' ', 't',
      'o', ' ', 'd', 'e', 'c', 'o', 'd', 'e', ' ', 'r', 'e', 's', 'p', 'o', 'n', 's', 'e', ' ',
      'b', 'o', 'd', 'y'] := rfl
  rw [hlow]
  unfold strings.Contains GoString.ofString
  rw [hp, h1, h2]
  constructor
  · apply decide_eq_decide.mpr
    simp [List.infix_cons_iff, List.cons_prefix_cons]
  · apply decide_eq_decide.mpr
    simp [List.infix_cons_iff, List.cons_prefix_cons]

/-! ### The branches of the client -/

theorem fetch_status (NewRequest : GoString → Option GoError) (client : http.Client)
    (c : GoString) (resp : http.Response) (hreq : NewRequest (requestURL c) = none)
    (hdo : client.Do (requestURL c) = .ok resp) (hst : resp.StatusCode ≠ 200) :
    viaCepClientImpl.FetchAddressFromViaCep NewRequest ⟨client⟩ c
      = (none, some (fmt.Errorf_d "request failed with status code: " resp.StatusCode)) := by
  simp [viaCepClientImpl.FetchAddressFromViaCep, hreq, hdo, hst, http.StatusOK]

theorem fetch_decode_error (NewRequest : GoString → Option GoError) (client : http.Client)
    (c : GoString) (body : String) (filled : domain.Address) (e : GoError)
    (hreq : NewRequest (requestURL c) = none)
    (hdo : client.Do (requestURL c) = .ok ⟨200, body⟩)
    (hdec : json.Decode body domain.Address.zero = (filled, some e)) :
    viaCepClientImpl.FetchAddressFromViaCep NewRequest ⟨client⟩ c
      = (none, some (fmt.Errorf_w "failed to decode response body: " e)) := by
  simp [viaCepClientImpl.FetchAddressFromViaCep, hreq, hdo, hdec, http.StatusOK]

theorem fetch_empty_cep (NewRequest : GoString → Option GoError) (client : http.Client)
    (c : GoString) (body : String) (a : domain.Address)
    (hreq : NewRequest (requestURL c) = none)
    (hdo : client.Do (requestURL c) = .ok ⟨200, body⟩)
    (hdec : json.Decode body domain.Address.zero = (a, none)) (hcep : a.CEP = "") :
    viaCepClientImpl.FetchAddressFromViaCep NewRequest ⟨client⟩ c
      = (none, some (fmt.Errorf_s "address not found for CEP: " c)) := by
  simp [viaCepClientImpl.FetchAddressFromViaCep, hreq, hdo, hdec, hcep, http.StatusOK]

theorem fetch_do_error (NewRequest : GoString → Option GoError) (client : http.Client)
    (c : GoString) (cause : GoError) (hreq : NewRequest (requestURL c) = none)
    (hdo : client.Do (requestURL c) = .error cause) :
    viaCepClientImpl.FetchAddressFromViaCep NewRequest ⟨client⟩ c
      = (none, some (fmt.Errorf_w "failed to execute request: " cause)) := by
  simp [viaCepClientImpl.FetchAddressFromViaCep, hreq, hdo]

/-- Every path through the client ends either with no address and an error, or with an
address of non-empty `cep` and no error. -/
theorem fetch_cases (NewRequest : GoString → Option GoError) (client : http.Client)
    (c : GoString) :
    (∃ err, viaCepClientImpl.FetchAddressFromViaCep NewRequest ⟨client⟩ c = (none, some err)) ∨
    (∃ a, viaCepClientImpl.FetchAddressFromViaCep NewRequest ⟨client⟩ c = (some a, none) ∧
      a.CEP ≠ "") := by
  cases hreq : NewRequest (requestURL c) with
  | some e =>
    exact Or.inl ⟨fmt.Errorf_w "failed to create request: " e,
      by simp [viaCepClientImpl.FetchAddressFromViaCep, hreq]⟩
  | none =>
    cases hdo : client.Do (requestURL c) with
    | error e => exact Or.inl ⟨_, fetch_do_error NewRequest client c e hreq hdo⟩
    | ok resp =>
      by_cases hst : resp.StatusCode = 200
      · obtain ⟨st, body⟩ := resp
        simp only at hst
        subst hst
        cases hdec : json.Decode body domain.Address.zero with
        | mk a oe =>
          cases oe with
          | some e => exact Or.inl ⟨_, fetch_decode_error NewRequest client c body a e hreq hdo hdec⟩
          | none =>
            by_cases hcep : a.CEP = ""
            · exact Or.inl ⟨_, fetch_empty_cep NewRequest client c body a hreq hdo hdec hcep⟩
            · refine Or.inr ⟨a, ?_, hcep⟩
              simp [viaCepClientImpl.FetchAddressFromViaCep, hreq, hdo, hdec, hcep,
                http.StatusOK]
      · exact Or.inl ⟨_, fetch_status NewRequest client c resp hreq hdo hst⟩

/-- C9: the client never returns an address with an empty `cep` as a success: whenever
the error it returns is nil, it returns an address and the `cep` of that address is
non-empty; and a 200 response that decodes to an address with an empty `cep` yields no
address and the error "address not found for CEP: " followed by the requested code. -/
theorem C9_empty_cep_never_succeeds (NewRequest : GoString → Option GoError)
    (client : http.Client) (c : GoString) :
    (∀ address, viaCepClientImpl.FetchAddressFromViaCep NewRequest ⟨client⟩ c
        = (address, none) → ∃ a, address = some a ∧ a.CEP ≠ "") ∧
    (∀ body a, NewRequest (requestURL c) = none →
      client.Do (requestURL c) = .ok ⟨200, body⟩ →
      json.Decode body domain.Address.zero = (a, none) → a.CEP = "" →
      ∃ err, viaCepClientImpl.FetchAddressFromViaCep NewRequest ⟨client⟩ c = (none, some err) ∧
        err.Error = "address not found for CEP: " ++ c) := by
  constructor
  · intro address h
    rcases fetch_cases NewRequest client c with ⟨err, he⟩ | ⟨a, ha, hcep⟩
    · rw [he] at h
      exact absurd (congrArg Prod.snd h) (by simp)
    · rw [ha] at h
      exact ⟨a, (congrArg Prod.fst h).symm, hcep⟩
  · intro body a hreq hdo hdec hcep
    exact ⟨_, fetch_empty_cep NewRequest client c body a hreq hdo hdec hcep, rfl⟩

/-- C9, at the code 00000000: a client whose upstream sends an address succeeds with a
non-empty `cep`, and one whose upstream sends `\x7b"erro": true\x7d` fails with the
not-found error naming the code. -/
theorem C9_empty_cep_never_succeeds_witness :
    (∃ a, some (⟨"01001-000", "", "", "", "", "SP", "", "", "", ""⟩ : domain.Address) = some a ∧
      a.CEP ≠ "") ∧
    (∃ err, viaCepClientImpl.FetchAddressFromViaCep (fun _ => none)
        ⟨⟨fun _ => .ok ⟨200, "\x7b\"erro\": true\x7d"⟩⟩⟩ "00000000" = (none, some err) ∧
      err.Error = "address not found for CEP: " ++ "00000000") :=
  ⟨(C9_empty_cep_never_succeeds (fun _ => none)
      ⟨fun _ => .ok ⟨200, "\x7b\"cep\":\"01001-000\",\"uf\":\"SP\"\x7d"⟩⟩ "00000000").1 _ rfl,
   (C9_empty_cep_never_succeeds (fun _ => none)
      ⟨fun _ => .ok ⟨200, "\x7b\"erro\": true\x7d"⟩⟩ "00000000").2
      "\x7b\"erro\": true\x7d" domain.Address.zero rfl rfl rfl rfl⟩

end services

/-! ## The request handler -/

namespace handler

theorem TrimPrefix_cep (c : GoString) : strings.TrimPrefix ("/cep/" ++ c) "/cep/" = c := by
  have h : "/cep/".data = ['/', 'c', 'e', 'p', '/'] := rfl
  simp [strings.TrimPrefix, strings.HasPrefix, GoString.ofString, h]

theorem cep_path_ne (c : GoString) : c ≠ "/cep/" ++ c := by
  intro h
  have := congrArg List.length h
  simp [GoString.ofString] at this
  have h5 : "/cep/".length = 5 := rfl
  omega

/-- On a path `/cep/<code>` with a non-empty code the handler calls the service with
that code and replies according to the pair it returns. -/
theorem handler_code (caseTable : Char → Char) (h : CepHandler) (w : http.ResponseWriter)
    (c : GoString) (hc : c ≠ "") :
    h.GetAddressByCepHandler caseTable w ("/cep/" ++ c) =
      match h.service c with
      | (_, some err) =>
        if strings.Contains (strings.ToLower caseTable err.Error) "not found" ||
            strings.Contains (strings.ToLower caseTable err.Error)
              "failed to decode response body" then
          ⟨json.EncodeErrorMap ((w.SetHeader "Content-Type" "application/json").WriteHeader
            http.StatusNotFound) ("Address not found for CEP: " ++ c), [c]⟩
        else
          ⟨json.EncodeErrorMap ((w.SetHeader "Content-Type" "application/json").WriteHeader
            http.StatusInternalServerError) "Internal server error", [c]⟩
      | (address, none) =>
        ⟨json.EncodeAddress ((w.SetHeader "Content-Type" "application/json").WriteHeader
          http.StatusOK) address, [c]⟩ := by
  unfold CepHandler.GetAddressByCepHandler
  simp only [TrimPrefix_cep]
  rw [if_neg (by
    rintro (h1 | h1)
    · exact hc h1
    · exact cep_path_ne c h1)]

/-- The handler calls the service, with the code `c`, exactly on the paths `/cep/<c>`
with `c` non-empty: these are the requests that reach the service, the client and the
upstream. -/
theorem serviceCalls_iff (caseTable : Char → Char) (h : CepHandler) (w : http.ResponseWriter)
    (path c : GoString) :
    (h.GetAddressByCepHandler caseTable w path).serviceCalls = [c] ↔
      path = "/cep/" ++ c ∧ c ≠ "" := by
  constructor
  · intro hcall
    unfold CepHandler.GetAddressByCepHandler at hcall
    simp only [] at hcall
    by_cases hcond : strings.TrimPrefix path "/cep/" = "" ∨ strings.TrimPrefix path "/cep/" = path
    · rw [if_pos hcond] at hcall
      exact absurd hcall (by simp)
    · rw [if_neg hcond] at hcall
      push_neg at hcond
      have hc : strings.TrimPrefix path "/cep/" = c := by
        rcases hs : h.service (strings.TrimPrefix path "/cep/") with ⟨address, _ | err⟩
        · rw [hs] at hcall
          simpa using hcall
        · rw [hs] at hcall
          simp only [] at hcall
          split_ifs at hcall <;> simpa using hcall
      have hpre : strings.HasPrefix path "/cep/" = true := by
        by_contra hn
        exact hcond.2 (by simp [strings.TrimPrefix, hn])
      refine ⟨?_, hc ▸ hcond.1⟩
      rw [← hc]
      simp only [strings.TrimPrefix, hpre, if_true]
      have hp : GoString.ofString "/cep/" <+: path := List.isPrefixOf_iff_prefix.mp hpre
      obtain ⟨t, ht⟩ := hp
      rw [← ht]
      simp
  · rintro ⟨rfl, hc⟩
    rw [handler_code caseTable h w c hc]
    rcases h.service c with ⟨address, _ | err⟩
    · rfl
    · simp only []
      split_ifs <;> rfl

/-- C1: on a path whose remainder after the prefix `/cep/` is empty, or that does not
start with `/cep/` at all, the handler replies with status 400 and the fixed usage body
(the message followed by a newline, so equal to the message up to surrounding white
space), the same for every such path, and calls the service zero times. -/
theorem C1_missing_code_is_bad_request (caseTable : Char → Char) (h : CepHandler)
    (path : GoString)
    (hp : strings.TrimPrefix path "/cep/" = "" ∨ strings.HasPrefix path "/cep/" = false) :
    (h.GetAddressByCepHandler caseTable http.NewRecorder path).w.Code = 400 ∧
    (h.GetAddressByCepHandler caseTable http.NewRecorder path).w.Body =
      "\x7b\"error\": \"CEP must be provided in the URL path, e.g., /cep/01001000\"\x7d\n" ∧
    strings.TrimSpace (h.GetAddressByCepHandler caseTable http.NewRecorder path).w.Body =
      "\x7b\"error\": \"CEP must be provided in the URL path, e.g., /cep/01001000\"\x7d" ∧
    (h.GetAddressByCepHandler caseTable http.NewRecorder path).serviceCalls = [] := by
  have hcond : strings.TrimPrefix path "/cep/" = "" ∨ strings.TrimPrefix path "/cep/" = path := by
    rcases hp with hp | hp
    · exact Or.inl hp
    · exact Or.inr (by simp [strings.TrimPrefix, hp])
  have hrun : h.GetAddressByCepHandler caseTable http.NewRecorder path
      = ⟨http.Error http.NewRecorder usage http.StatusBadRequest, []⟩ := by
    unfold CepHandler.GetAddressByCepHandler
    simp only []
    rw [if_pos hcond]
  rw [hrun]
  refine ⟨by decide, by decide, by decide, rfl⟩

/-- C1, at the path `/cep` (no trailing slash), over a service double. -/
theorem C1_missing_code_is_bad_request_witness :
    strings.HasPrefix "/cep" "/cep/" = false ∧
    ((NewCepHandler (usecase.CepServiceMock none none)).GetAddressByCepHandler id
        http.NewRecorder "/cep").w.Code = 400 ∧
    ((NewCepHandler (usecase.CepServiceMock none none)).GetAddressByCepHandler id
        http.NewRecorder "/cep").serviceCalls = [] :=
  ⟨by decide,
   (C1_missing_code_is_bad_request id (NewCepHandler (usecase.CepServiceMock none none))
      "/cep" (Or.inr (by decide))).1,
   (C1_missing_code_is_bad_request id (NewCepHandler (usecase.CepServiceMock none none))
      "/cep" (Or.inr (by decide))).2.2.2⟩

/-- The 404 reply for a code: status 404 and a body that reads back as the object with
the single member `error` holding "Address not found for CEP: " followed by the code as
text, that is with U+FFFD for every byte of the code that belongs to no valid UTF-8
encoding. -/
theorem not_found_reply (c : GoString) :
    (json.EncodeErrorMap ((http.NewRecorder.SetHeader "Content-Type"
      "application/json").WriteHeader http.StatusNotFound)
      ("Address not found for CEP: " ++ c)).Code = 404 ∧
    json.unmarshalValue (json.EncodeErrorMap ((http.NewRecorder.SetHeader "Content-Type"
      "application/json").WriteHeader http.StatusNotFound)
      ("Address not found for CEP: " ++ c)).Body
      = .ok (json.Value.object
          [("error", json.Value.string ("Address not found for CEP: " ++ c.text))]) := by
  refine ⟨rfl, ?_⟩
  have hb : (json.EncodeErrorMap ((http.NewRecorder.SetHeader "Content-Type"
      "application/json").WriteHeader http.StatusNotFound)
      ("Address not found for CEP: " ++ c)).Body
      = json.MarshalErrorMap ("Address not found for CEP: " ++ c) ++ "\n" := by
    simp [json.EncodeErrorMap, http.ResponseWriter.Write, http.ResponseWriter.WriteHeader,
      http.ResponseWriter.SetHeader, http.NewRecorder]
  rw [hb, json.unmarshalValue_MarshalErrorMap, GoString.text_append, GoString.text_ofString]

/-- C2 fails as stated: for the code that is the single byte `0xff` (the request
`/cep/%ff`) and a service error reading "not found", the reply has status 404 but the
member `error` of its body is "Address not found for CEP: " followed by U+FFFD, which is
not "Address not found for CEP: " followed by the code. -/
theorem C2_not_found_body_counterexample :
    ((NewCepHandler (usecase.CepServiceMock none
        (some (GoError.errorString "not found")))).GetAddressByCepHandler id
        http.NewRecorder ("/cep/" ++ [GoRune.byte 0xff])).w.Code = 404 ∧
    json.unmarshalValue
        ((NewCepHandler (usecase.CepServiceMock none
          (some (GoError.errorString "not found")))).GetAddressByCepHandler id
          http.NewRecorder ("/cep/" ++ [GoRune.byte 0xff])).w.Body
      = .ok (json.Value.object
          [("error", json.Value.string "Address not found for CEP: \ufffd")]) ∧
    GoString.ofString "Address not found for CEP: \ufffd"
      ≠ "Address not found for CEP: " ++ [GoRune.byte 0xff] := by
  refine ⟨rfl, rfl, ?_⟩
  decide

/-- C2, amended: for a non-empty code `c` in the path and a non-nil service error whose
lower-cased message contains "not found" or "failed to decode response body", the
handler replies with status 404 and a body that is the JSON object with the single
member `error` = "Address not found for CEP: " followed by `c` as text, in which U+FFFD
stands for every byte of `c` that belongs to no valid UTF-8 encoding; so followed by `c`
itself whenever `c` is valid UTF-8. -/
theorem C2_not_found_error_is_404 (caseTable : Char → Char) (h : CepHandler) (c : GoString)
    (address : Option domain.Address) (e : GoError) (hc : c ≠ "")
    (hs : h.service c = (address, some e))
    (hm : strings.Contains (strings.ToLower caseTable e.Error) "not found" = true ∨
      strings.Contains (strings.ToLower caseTable e.Error) "failed to decode response body"
        = true) :
    (h.GetAddressByCepHandler caseTable http.NewRecorder ("/cep/" ++ c)).w.Code = 404 ∧
    json.unmarshalValue
        (h.GetAddressByCepHandler caseTable http.NewRecorder ("/cep/" ++ c)).w.Body
      = .ok (json.Value.object
          [("error", json.Value.string ("Address not found for CEP: " ++ c.text))]) ∧
    (∀ s : String, c = GoString.ofString s →
      json.unmarshalValue
          (h.GetAddressByCepHandler caseTable http.NewRecorder ("/cep/" ++ c)).w.Body
        = .ok (json.Value.object
            [("error", json.Value.string ("Address not found for CEP: " ++ s))])) := by
  have hcond : (strings.Contains (strings.ToLower caseTable e.Error) "not found" ||
      strings.Contains (strings.ToLower caseTable e.Error) "failed to decode response body")
      = true := by
    rcases hm with hm | hm <;> simp [hm]
  rw [handler_code caseTable h _ c hc, hs]
  simp only [hcond, if_true]
  refine ⟨(not_found_reply c).1, (not_found_reply c).2, ?_⟩
  intro s hcs
  rw [(not_found_reply c).2, hcs, GoString.text_ofString]

/-- C2 amended, at the code 99999999 with an error whose message has the words in
capitals. -/
theorem C2_not_found_error_is_404_witness :
    ((NewCepHandler (usecase.CepServiceMock none
        (some (GoError.errorString "Address NOT Found")))).GetAddressByCepHandler id
        http.NewRecorder ("/cep/" ++ GoString.ofString "99999999")).w.Code = 404 ∧
    json.unmarshalValue
        ((NewCepHandler (usecase.CepServiceMock none
          (some (GoError.errorString "Address NOT Found")))).GetAddressByCepHandler id
          http.NewRecorder ("/cep/" ++ GoString.ofString "99999999")).w.Body
      = .ok (json.Value.object
          [("error", json.Value.string ("Address not found for CEP: " ++ "99999999"))]) :=
  ⟨(C2_not_found_error_is_404 id
      (NewCepHandler (usecase.CepServiceMock none
        (some (GoError.errorString "Address NOT Found"))))
      (GoString.ofString "99999999") none (GoError.errorString "Address NOT Found")
      (by decide) rfl (Or.inl (by decide))).1,
   (C2_not_found_error_is_404 id
      (NewCepHandler (usecase.CepServiceMock none
        (some (GoError.errorString "Address NOT Found"))))
      (GoString.ofString "99999999") none (GoError.errorString "Address NOT Found")
      (by decide) rfl (Or.inl (by decide))).2.2 "99999999" rfl⟩

/-- C3: for a non-empty code and a non-nil service error whose lower-cased message
contains neither "not found" nor "failed to decode response body", the handler replies
with status 500 and the body `\x7b"error":"Internal server error"\x7d` followed by a
newline: one fixed text, in which neither the error nor the code appears. -/
theorem C3_other_error_is_500 (caseTable : Char → Char) (h : CepHandler) (c : GoString)
    (address : Option domain.Address) (e : GoError) (hc : c ≠ "")
    (hs : h.service c = (address, some e))
    (h1 : strings.Contains (strings.ToLower caseTable e.Error) "not found" = false)
    (h2 : strings.Contains (strings.ToLower caseTable e.Error)
      "failed to decode response body" = false) :
    (h.GetAddressByCepHandler caseTable http.NewRecorder ("/cep/" ++ c)).w.Code = 500 ∧
    (h.GetAddressByCepHandler caseTable http.NewRecorder ("/cep/" ++ c)).w.Body
      = "\x7b\"error\":\"Internal server error\"\x7d\n" ∧
    json.unmarshalValue
        (h.GetAddressByCepHandler caseTable http.NewRecorder ("/cep/" ++ c)).w.Body
      = .ok (json.Value.object [("error", json.Value.string "Internal server error")]) := by
  rw [handler_code caseTable h _ c hc, hs]
  simp only [h1, h2, Bool.or_false, Bool.false_eq_true, if_false]
  refine ⟨by decide, by decide, ?_⟩
  exact json.unmarshalValue_MarshalErrorMap "Internal server error"

/-- C3, at the code 12345678 with the error of the handler test. -/
theorem C3_other_error_is_500_witness :
    ((NewCepHandler (usecase.CepServiceMock none
        (some (GoError.errorString "some internal service error")))).GetAddressByCepHandler id
        http.NewRecorder ("/cep/" ++ "12345678")).w.Code = 500 ∧
    ((NewCepHandler (usecase.CepServiceMock none
        (some (GoError.errorString "some internal service error")))).GetAddressByCepHandler id
        http.NewRecorder ("/cep/" ++ "12345678")).w.Body
      = "\x7b\"error\":\"Internal server error\"\x7d\n" :=
  ⟨(C3_other_error_is_500 id
      (NewCepHandler (usecase.CepServiceMock none
        (some (GoError.errorString "some internal service error"))))
      "12345678" none (GoError.errorString "some internal service error") (by decide) rfl
      (by decide) (by decide)).1,
   (C3_other_error_is_500 id
      (NewCepHandler (usecase.CepServiceMock none
        (some (GoError.errorString "some internal service error"))))
      "12345678" none (GoError.errorString "some internal service error") (by decide) rfl
      (by decide) (by decide)).2.1⟩

/-! ### The handler over the service over the client -/

/-- The wired handler on `/cep/<code>`, given the pair the client returns for the code
when that pair carries an error. -/
theorem serve_error (caseTable : Char → Char) (NewRequest : GoString → Option GoError)
    (client : http.Client) (c : GoString) (hc : c ≠ "") (address : Option domain.Address)
    (err : GoError)
    (hf : services.viaCepClientImpl.FetchAddressFromViaCep NewRequest ⟨client⟩ c
      = (address, some err)) :
    serve caseTable NewRequest client http.NewRecorder ("/cep/" ++ c) =
      if strings.Contains (strings.ToLower caseTable err.Error) "not found" ||
          strings.Contains (strings.ToLower caseTable err.Error)
            "failed to decode response body" then
        ⟨json.EncodeErrorMap ((http.NewRecorder.SetHeader "Content-Type"
          "application/json").WriteHeader http.StatusNotFound)
          ("Address not found for CEP: " ++ c), [c]⟩
      else
        ⟨json.EncodeErrorMap ((http.NewRecorder.SetHeader "Content-Type"
          "application/json").WriteHeader http.StatusInternalServerError)
          "Internal server error", [c]⟩ := by
  unfold serve
  rw [handler_code caseTable _ _ c hc]
  simp only [NewCepHandler, usecase.NewCepService, usecase.cepServiceImpl.GetAddressByCep,
    services.NewViaCepClientWithHttpClient, hf]

/-- The wired handler on `/cep/<code>`, given the address the client returns for the
code. -/
theorem serve_ok (caseTable : Char → Char) (NewRequest : GoString → Option GoError)
    (client : http.Client) (c : GoString) (hc : c ≠ "") (address : Option domain.Address)
    (hf : services.viaCepClientImpl.FetchAddressFromViaCep NewRequest ⟨client⟩ c
      = (address, none)) :
    serve caseTable NewRequest client http.NewRecorder ("/cep/" ++ c) =
      ⟨json.EncodeAddress ((http.NewRecorder.SetHeader "Content-Type"
        "application/json").WriteHeader http.StatusOK) address, [c]⟩ := by
  unfold serve
  rw [handler_code caseTable _ _ c hc]
  simp only [NewCepHandler, usecase.NewCepService, usecase.cepServiceImpl.GetAddressByCep,
    services.NewViaCepClientWithHttpClient, hf]

theorem internal_error_reply :
    (json.EncodeErrorMap ((http.NewRecorder.SetHeader "Content-Type"
      "application/json").WriteHeader http.StatusInternalServerError)
      "Internal server error").Code = 500 ∧
    (json.EncodeErrorMap ((http.NewRecorder.SetHeader "Content-Type"
      "application/json").WriteHeader http.StatusInternalServerError)
      "Internal server error").Body = "\x7b\"error\":\"Internal server error\"\x7d\n" := by
  decide

/-- C4: for a non-empty code in the path, when the upstream answers 200 with a body that
decodes to an address with a non-empty `cep`, the wired handler replies with status 200
and a body that `json.Unmarshal` reads back as that same address. -/
theorem C4_upstream_address_is_200 (caseTable : Char → Char)
    (NewRequest : GoString → Option GoError) (client : http.Client) (c : GoString) (body : String)
    (a : domain.Address) (hc : c ≠ "")
    (hreq : NewRequest (services.requestURL c) = none)
    (hdo : client.Do (services.requestURL c) = .ok ⟨200, body⟩)
    (hdec : json.Decode body domain.Address.zero = (a, none))
    (hcep : a.CEP ≠ "") :
    (serve caseTable NewRequest client http.NewRecorder ("/cep/" ++ c)).w.Code = 200 ∧
    json.Unmarshal (serve caseTable NewRequest client http.NewRecorder ("/cep/" ++ c)).w.Body
      domain.Address.zero = (a, none) := by
  have hf : services.viaCepClientImpl.FetchAddressFromViaCep NewRequest ⟨client⟩ c
      = (some a, none) := by
    simp [services.viaCepClientImpl.FetchAddressFromViaCep, hreq, hdo, hdec, hcep,
      http.StatusOK]
  rw [serve_ok caseTable NewRequest client c hc _ hf]
  refine ⟨rfl, ?_⟩
  have hb : (json.EncodeAddress ((http.NewRecorder.SetHeader "Content-Type"
      "application/json").WriteHeader http.StatusOK) (some a)).Body
      = json.MarshalAddress (some a) ++ "\n" := by
    simp [json.EncodeAddress, http.ResponseWriter.Write, http.ResponseWriter.WriteHeader,
      http.ResponseWriter.SetHeader, http.NewRecorder]
  rw [hb]
  exact json.Unmarshal_MarshalAddress a _

/-- C4, at the request `/cep/01001000` with the upstream body of the scenario of the
specification. -/
theorem C4_upstream_address_is_200_witness :
    (serve id (fun _ => none)
      ⟨fun _ => .ok ⟨200, "\x7b\"cep\":\"01001-000\",\"logradouro\":\"Praça da Sé\",\"bairro\":\"Sé\",\"localidade\":\"São Paulo\",\"uf\":\"SP\"\x7d"⟩⟩
      http.NewRecorder ("/cep/" ++ "01001000")).w.Code = 200 ∧
    json.Unmarshal (serve id (fun _ => none)
      ⟨fun _ => .ok ⟨200, "\x7b\"cep\":\"01001-000\",\"logradouro\":\"Praça da Sé\",\"bairro\":\"Sé\",\"localidade\":\"São Paulo\",\"uf\":\"SP\"\x7d"⟩⟩
      http.NewRecorder ("/cep/" ++ "01001000")).w.Body domain.Address.zero
      = (⟨"01001-000", "Praça da Sé", "", "Sé", "São Paulo", "SP", "", "", "", ""⟩, none) :=
  C4_upstream_address_is_200 id (fun _ => none) _ "01001000" _
    ⟨"01001-000", "Praça da Sé", "", "Sé", "São Paulo", "SP", "", "", "", ""⟩
    (by decide) rfl rfl (by decide) (by decide)

/-- C5: for a non-empty code, when the upstream answers 200 with a body that fails to
decode, the wired handler replies with status 404, not 500: the client returns the
decode error wrapped behind "failed to decode response body: ", and the lower-cased
message of that error contains the words the handler classifies as not-found, whatever
the decode error says. -/
theorem C5_undecodable_body_is_404 (caseTable : Char → Char)
    (NewRequest : GoString → Option GoError) (client : http.Client) (c : GoString) (body : String)
    (filled : domain.Address) (e : GoError) (hc : c ≠ "")
    (hreq : NewRequest (services.requestURL c) = none)
    (hdo : client.Do (services.requestURL c) = .ok ⟨200, body⟩)
    (hdec : json.Decode body domain.Address.zero = (filled, some e)) :
    (serve caseTable NewRequest client http.NewRecorder ("/cep/" ++ c)).w.Code = 404 ∧
    (serve caseTable NewRequest client http.NewRecorder ("/cep/" ++ c)).w.Code ≠ 500 ∧
    services.viaCepClientImpl.FetchAddressFromViaCep NewRequest ⟨client⟩ c
      = (none, some (fmt.Errorf_w "failed to decode response body: " e)) ∧
    strings.Contains (strings.ToLower caseTable
      (fmt.Errorf_w "failed to decode response body: " e).Error)
      "failed to decode response body" = true := by
  have hf := services.fetch_decode_error NewRequest client c body filled e hreq hdo hdec
  have hcl := services.decode_error_classified caseTable e
  rw [serve_error caseTable NewRequest client c hc _ _ hf]
  simp only [hcl, Bool.or_true, if_true]
  refine ⟨(not_found_reply c).1, ?_, hf, trivial⟩
  rw [(not_found_reply c).1]
  decide

/-- C5, at the code 12345000 with the truncated body of the client test. -/
theorem C5_undecodable_body_is_404_witness :
    json.Decode "\x7b\"cep\": \"12345-000\", \"logradouro\": \"Rua Teste\"," domain.Address.zero
      = (domain.Address.zero, some (GoError.errorString "unexpected EOF")) ∧
    (serve id (fun _ => none)
      ⟨fun _ => .ok ⟨200, "\x7b\"cep\": \"12345-000\", \"logradouro\": \"Rua Teste\","⟩⟩
      http.NewRecorder ("/cep/" ++ "12345000")).w.Code = 404 :=
  ⟨rfl,
   (C5_undecodable_body_is_404 id (fun _ => none)
      ⟨fun _ => .ok ⟨200, "\x7b\"cep\": \"12345-000\", \"logradouro\": \"Rua Teste\","⟩⟩
      "12345000" _ domain.Address.zero (GoError.errorString "unexpected EOF")
      (by decide) rfl rfl rfl).1⟩

/-- C6: for a non-empty code, when the upstream answers with a status other than 200,
whatever the status and the body, the wired handler replies with status 500 and the body
`\x7b"error":"Internal server error"\x7d` followed by a newline, never with 404. -/
theorem C6_upstream_status_is_500 (caseTable : Char → Char)
    (NewRequest : GoString → Option GoError) (client : http.Client) (c : GoString)
    (resp : http.Response) (hc : c ≠ "")
    (hreq : NewRequest (services.requestURL c) = none)
    (hdo : client.Do (services.requestURL c) = .ok resp)
    (hst : resp.StatusCode ≠ 200) :
    (serve caseTable NewRequest client http.NewRecorder ("/cep/" ++ c)).w.Code = 500 ∧
    (serve caseTable NewRequest client http.NewRecorder ("/cep/" ++ c)).w.Body
      = "\x7b\"error\":\"Internal server error\"\x7d\n" ∧
    (serve caseTable NewRequest client http.NewRecorder ("/cep/" ++ c)).w.Code ≠ 404 := by
  have hf := services.fetch_status NewRequest client c resp hreq hdo hst
  obtain ⟨h1, h2⟩ := services.status_error_not_classified caseTable resp.StatusCode
  rw [serve_error caseTable NewRequest client c hc _ _ hf]
  simp only [h1, h2, Bool.or_false, Bool.false_eq_true, if_false]
  exact ⟨internal_error_reply.1, internal_error_reply.2, by decide⟩

/-- C6, at the code 99999999 with the upstream reply of the client test: status 404 and
a body that speaks of "not found". -/
theorem C6_upstream_status_is_500_witness :
    ((404 : Int) ≠ 200) ∧
    (serve id (fun _ => none)
      ⟨fun _ => .ok ⟨404, "\x7b\"error\": \"CEP not found\"\x7d"⟩⟩
      http.NewRecorder ("/cep/" ++ "99999999")).w.Code = 500 :=
  ⟨by decide,
   (C6_upstream_status_is_500 id (fun _ => none)
      ⟨fun _ => .ok ⟨404, "\x7b\"error\": \"CEP not found\"\x7d"⟩⟩ "99999999"
      ⟨404, "\x7b\"error\": \"CEP not found\"\x7d"⟩ (by decide) rfl rfl (by decide)).1⟩

set_option maxRecDepth 4096 in
/-- C7 fails as stated: a transport failure whose cause reads "Not Found" (what the
transport reports when a proxy refuses the tunnel with that status text) is answered
with status 404, not 500. -/
theorem C7_transport_error_counterexample :
    (serve id (fun _ => none)
      ⟨fun _ => .error (GoError.errorString "Get \"https://viacep.com.br/ws/01001000/json/\": Not Found")⟩
      http.NewRecorder "/cep/01001000").w.Code = 404 ∧
    (serve id (fun _ => none)
      ⟨fun _ => .error (GoError.errorString "Get \"https://viacep.com.br/ws/01001000/json/\": Not Found")⟩
      http.NewRecorder "/cep/01001000").w.Code ≠ 500 := by
  have h : (serve id (fun _ => none)
      ⟨fun _ => .error (GoError.errorString "Get \"https://viacep.com.br/ws/01001000/json/\": Not Found")⟩
      http.NewRecorder "/cep/01001000").w.Code = 404 := rfl
  refine ⟨h, ?_⟩
  rw [h]
  decide

/-- C7, amended: for a non-empty code, when the outbound call fails with a cause whose
lower-cased message contains neither "not found" nor "failed to decode response body",
the wired handler replies with status 500 and the body
`\x7b"error":"Internal server error"\x7d` followed by a newline. -/
theorem C7_transport_error_is_500 (caseTable : Char → Char)
    (NewRequest : GoString → Option GoError) (client : http.Client) (c : GoString)
    (cause : GoError) (hc : c ≠ "")
    (hreq : NewRequest (services.requestURL c) = none)
    (hdo : client.Do (services.requestURL c) = .error cause)
    (h1 : strings.Contains (strings.ToLower caseTable cause.Error) "not found" = false)
    (h2 : strings.Contains (strings.ToLower caseTable cause.Error)
      "failed to decode response body" = false) :
    (serve caseTable NewRequest client http.NewRecorder ("/cep/" ++ c)).w.Code = 500 ∧
    (serve caseTable NewRequest client http.NewRecorder ("/cep/" ++ c)).w.Body
      = "\x7b\"error\":\"Internal server error\"\x7d\n" := by
  have hf := services.fetch_do_error NewRequest client c cause hreq hdo
  obtain ⟨e1, e2⟩ := services.execute_error_classified caseTable cause
  rw [serve_error caseTable NewRequest client c hc _ _ hf]
  simp only [e1, e2, h1, h2, Bool.or_false, Bool.false_eq_true, if_false]
  exact internal_error_reply

set_option maxRecDepth 4096 in
/-- C7 amended, at the code 12312312 with a refused connection. -/
theorem C7_transport_error_is_500_witness :
    (serve id (fun _ => none)
      ⟨fun _ => .error (GoError.errorString
        "Get \"https://viacep.com.br/ws/12312312/json/\": dial tcp 127.0.0.1:443: connect: connection refused")⟩
      http.NewRecorder ("/cep/" ++ "12312312")).w.Code = 500 ∧
    (serve id (fun _ => none)
      ⟨fun _ => .error (GoError.errorString
        "Get \"https://viacep.com.br/ws/12312312/json/\": dial tcp 127.0.0.1:443: connect: connection refused")⟩
      http.NewRecorder ("/cep/" ++ "12312312")).w.Body
      = "\x7b\"error\":\"Internal server error\"\x7d\n" :=
  C7_transport_error_is_500 id (fun _ => none) _ "12312312"
    (GoError.errorString
      "Get \"https://viacep.com.br/ws/12312312/json/\": dial tcp 127.0.0.1:443: connect: connection refused")
    (by decide) rfl rfl rfl rfl

/-- C8 fails as stated: for the request `/cep/%ff`, whose code is the single byte
`0xff`, and an upstream that answers 200 with `\x7b"erro": true\x7d`, the reply has status
404 but the member `error` of its body is "Address not found for CEP: " followed by
U+FFFD, which is not "Address not found for CEP: " followed by the requested code. -/
theorem C8_empty_cep_body_counterexample :
    (serve id (fun _ => none) ⟨fun _ => .ok ⟨200, "\x7b\"erro\": true\x7d"⟩⟩
      http.NewRecorder ("/cep/" ++ [GoRune.byte 0xff])).w.Code = 404 ∧
    json.unmarshalValue
        (serve id (fun _ => none) ⟨fun _ => .ok ⟨200, "\x7b\"erro\": true\x7d"⟩⟩
          http.NewRecorder ("/cep/" ++ [GoRune.byte 0xff])).w.Body
      = .ok (json.Value.object
          [("error", json.Value.string "Address not found for CEP: \ufffd")]) ∧
    GoString.ofString "Address not found for CEP: \ufffd"
      ≠ "Address not found for CEP: " ++ [GoRune.byte 0xff] := by
  refine ⟨rfl, rfl, ?_⟩
  decide

/-- C8, amended: for a request `/cep/<code>` with a non-empty code, when the upstream
answers 200 with a body that decodes to an address with an empty `cep`, the wired
handler replies with status 404 and a body that is the JSON object with the single
member `error` = "Address not found for CEP: " followed by the requested code as text,
in which U+FFFD stands for every byte of the code that belongs to no valid UTF-8
encoding; so followed by the code itself whenever the code is valid UTF-8. -/
theorem C8_empty_cep_is_404 (caseTable : Char → Char)
    (NewRequest : GoString → Option GoError) (client : http.Client) (c : GoString)
    (body : String) (a : domain.Address) (hc : c ≠ "")
    (hreq : NewRequest (services.requestURL c) = none)
    (hdo : client.Do (services.requestURL c) = .ok ⟨200, body⟩)
    (hdec : json.Decode body domain.Address.zero = (a, none)) (hcep : a.CEP = "") :
    (serve caseTable NewRequest client http.NewRecorder ("/cep/" ++ c)).w.Code = 404 ∧
    json.unmarshalValue
        (serve caseTable NewRequest client http.NewRecorder ("/cep/" ++ c)).w.Body
      = .ok (json.Value.object
          [("error", json.Value.string ("Address not found for CEP: " ++ c.text))]) ∧
    (∀ s : String, c = GoString.ofString s →
      json.unmarshalValue
          (serve caseTable NewRequest client http.NewRecorder ("/cep/" ++ c)).w.Body
        = .ok (json.Value.object
            [("error", json.Value.string ("Address not found for CEP: " ++ s))])) := by
  have hf := services.fetch_empty_cep NewRequest client c body a hreq hdo hdec hcep
  have hcl := services.not_found_error_classified caseTable c
  rw [serve_error caseTable NewRequest client c hc _ _ hf]
  simp only [hcl, Bool.true_or, if_true]
  refine ⟨(not_found_reply c).1, (not_found_reply c).2, ?_⟩
  intro s hcs
  rw [(not_found_reply c).2, hcs, GoString.text_ofString]

/-- C8 amended, at the code 11111111 with the upstream body `\x7b"erro": true\x7d`, in
which `cep` is absent. -/
theorem C8_empty_cep_is_404_witness :
    (serve id (fun _ => none) ⟨fun _ => .ok ⟨200, "\x7b\"erro\": true\x7d"⟩⟩
      http.NewRecorder ("/cep/" ++ GoString.ofString "11111111")).w.Code = 404 ∧
    json.unmarshalValue
        (serve id (fun _ => none) ⟨fun _ => .ok ⟨200, "\x7b\"erro\": true\x7d"⟩⟩
          http.NewRecorder ("/cep/" ++ GoString.ofString "11111111")).w.Body
      = .ok (json.Value.object
          [("error", json.Value.string ("Address not found for CEP: " ++ "11111111"))]) ∧
    (serve id (fun _ => none) ⟨fun _ => .ok ⟨200, "\x7b\"erro\": true\x7d"⟩⟩
      http.NewRecorder ("/cep/" ++ GoString.ofString "11111111")).w.Body
      = "\x7b\"error\":\"Address not found for CEP: 11111111\"\x7d\n" :=
  ⟨(C8_empty_cep_is_404 id (fun _ => none) ⟨fun _ => .ok ⟨200, "\x7b\"erro\": true\x7d"⟩⟩
      (GoString.ofString "11111111") "\x7b\"erro\": true\x7d" domain.Address.zero
      (by decide) rfl rfl rfl rfl).1,
   (C8_empty_cep_is_404 id (fun _ => none) ⟨fun _ => .ok ⟨200, "\x7b\"erro\": true\x7d"⟩⟩
      (GoString.ofString "11111111") "\x7b\"erro\": true\x7d" domain.Address.zero
      (by decide) rfl rfl rfl rfl).2.2 "11111111" rfl,
   by decide⟩

/-- On a path `/cep/<code>` with a non-empty code, whatever the service returns, the
reply has status 200, 404 or 500 and the Content-Type `application/json`, in the header
map as it stood when the status line was written, hence before the status line and the
body. -/
theorem json_reply_content_type (caseTable : Char → Char) (h : CepHandler) (c : GoString)
    (hc : c ≠ "") :
    ((h.GetAddressByCepHandler caseTable http.NewRecorder ("/cep/" ++ c)).w.Code = 200 ∨
      (h.GetAddressByCepHandler caseTable http.NewRecorder ("/cep/" ++ c)).w.Code = 404 ∨
      (h.GetAddressByCepHandler caseTable http.NewRecorder ("/cep/" ++ c)).w.Code = 500) ∧
    (h.GetAddressByCepHandler caseTable http.NewRecorder ("/cep/" ++ c)).w.wroteHeader = true ∧
    http.Header.Get (h.GetAddressByCepHandler caseTable http.NewRecorder ("/cep/" ++ c)).w.sent
      "Content-Type" = "application/json" := by
  rw [handler_code caseTable h _ c hc]
  rcases h.service c with ⟨address, _ | err⟩
  · exact ⟨Or.inl rfl, rfl, rfl⟩
  · simp only []
    split_ifs
    · exact ⟨Or.inr (Or.inl rfl), rfl, rfl⟩
    · exact ⟨Or.inr (Or.inr rfl), rfl, rfl⟩

/-- C12 at the request `/cep/`: the handler writes a body that is a JSON object, with
status 400, but the Content-Type in force when the status line is written is the
`text/plain; charset=utf-8` that `http.Error` sets, not `application/json` as on the
200, 404 and 500 replies. -/
theorem C12_bad_request_content_type :
    ((NewCepHandler (usecase.CepServiceMock none none)).GetAddressByCepHandler id
        http.NewRecorder "/cep/").w.Code = 400 ∧
    json.unmarshalValue ((NewCepHandler (usecase.CepServiceMock none none)).GetAddressByCepHandler
        id http.NewRecorder "/cep/").w.Body
      = .ok (json.Value.object [("error",
          json.Value.string "CEP must be provided in the URL path, e.g., /cep/01001000")]) ∧
    http.Header.Get ((NewCepHandler (usecase.CepServiceMock none none)).GetAddressByCepHandler
        id http.NewRecorder "/cep/").w.sent "Content-Type" = "text/plain; charset=utf-8" ∧
    http.Header.Get ((NewCepHandler (usecase.CepServiceMock none none)).GetAddressByCepHandler
        id http.NewRecorder "/cep/").w.sent "Content-Type" ≠ "application/json" := by
  refine ⟨rfl, rfl, rfl, ?_⟩
  decide

end handler

/-! ## The service -/

namespace usecase

/-- C10 fails as stated: when the client returns an address together with an error, the
service returns a nil address with that error, which is not the pair of the client. -/
theorem C10_pass_through_counterexample :
    services.ViaCepClientMock (some domain.Address.zero)
        (some (GoError.errorString "client error")) "01001000"
      = (some domain.Address.zero, some (GoError.errorString "client error")) ∧
    NewCepService (services.ViaCepClientMock (some domain.Address.zero)
        (some (GoError.errorString "client error"))) "01001000"
      = (none, some (GoError.errorString "client error")) ∧
    NewCepService (services.ViaCepClientMock (some domain.Address.zero)
        (some (GoError.errorString "client error"))) "01001000"
      ≠ services.ViaCepClientMock (some domain.Address.zero)
        (some (GoError.errorString "client error")) "01001000" := by
  decide

/-- C10, amended: for every code, the service returns the error of the client
unchanged; it returns the very pair of the client whenever the address or the error of
that pair is nil; and it returns a nil address whenever the error is non-nil. -/
theorem C10_pass_through (client : services.ViaCepClient) (c : GoString) :
    (NewCepService client c).2 = (client c).2 ∧
    ((client c).1 = none ∨ (client c).2 = none → NewCepService client c = client c) ∧
    ((client c).2 ≠ none → (NewCepService client c).1 = none) := by
  cases h : client c with
  | mk address oe =>
    cases oe with
    | none => simp [NewCepService, cepServiceImpl.GetAddressByCep, h]
    | some err =>
      simp [NewCepService, cepServiceImpl.GetAddressByCep, h]
      exact fun h1 => h1.symm

/-- C10 amended, at the three pairs of the service test. -/
theorem C10_pass_through_witness :
    NewCepService (services.ViaCepClientMock none (some (GoError.errorString "client error")))
        "12345678"
      = (none, some (GoError.errorString "client error")) ∧
    NewCepService (services.ViaCepClientMock (some domain.Address.zero) none) "01001000"
      = (some domain.Address.zero, none) ∧
    NewCepService (services.ViaCepClientMock none none) "00000000" = (none, none) :=
  ⟨(C10_pass_through (services.ViaCepClientMock none
      (some (GoError.errorString "client error"))) "12345678").2.1 (Or.inl rfl),
   (C10_pass_through (services.ViaCepClientMock (some domain.Address.zero) none)
      "01001000").2.1 (Or.inr rfl),
   (C10_pass_through (services.ViaCepClientMock none none) "00000000").2.1 (Or.inl rfl)⟩

/-- C11: for every code, if the client returns a nil address together with a nil error,
the service returns a nil address together with a nil error: it makes up no error for
that pair. -/
theorem C11_nil_nil_passes (client : services.ViaCepClient) (c : GoString)
    (h : client c = (none, none)) : NewCepService client c = (none, none) := by
  simp [NewCepService, cepServiceImpl.GetAddressByCep, h]

/-- C11, at the code 00000000 over the client double of the service test. -/
theorem C11_nil_nil_passes_witness :
    services.ViaCepClientMock none none "00000000" = (none, none) ∧
    NewCepService (services.ViaCepClientMock none none) "00000000" = (none, none) :=
  ⟨rfl, C11_nil_nil_passes (services.ViaCepClientMock none none) "00000000" rfl⟩

/-- C14: on every path through the client exactly one of its two results is non-nil, the
address being non-nil if and only if the error is nil; so the service over this client
never returns a nil address with a nil error, and never an address together with an
error. -/
theorem C14_exactly_one_result (NewRequest : GoString → Option GoError)
    (client : http.Client) (c : GoString) :
    ((services.viaCepClientImpl.FetchAddressFromViaCep NewRequest ⟨client⟩ c).1 ≠ none ↔
      (services.viaCepClientImpl.FetchAddressFromViaCep NewRequest ⟨client⟩ c).2 = none) ∧
    NewCepService (services.NewViaCepClientWithHttpClient NewRequest client) c ≠ (none, none) ∧
    (∀ a e, NewCepService (services.NewViaCepClientWithHttpClient NewRequest client) c
      ≠ (some a, some e)) := by
  rcases services.fetch_cases NewRequest client c with ⟨err, he⟩ | ⟨a, ha, _⟩
  · simp [NewCepService, cepServiceImpl.GetAddressByCep,
      services.NewViaCepClientWithHttpClient, he]
  · simp [NewCepService, cepServiceImpl.GetAddressByCep,
      services.NewViaCepClientWithHttpClient, ha]

end usecase
